import Mathlib

/-!
# VICE drive status: registry (`drive-status.c`) and TCP diff server
(`monitor_drivestatus_server.c`)

A shallow embedding of the two C translation units.  Global C arrays indexed by
a unit number are total functions `Nat → _`; every write the C code performs is
guarded by `unit < NUM_DISK_UNITS`, and so is every write here.  C `int` values
are `Int`.  Calls into the network layer are recorded in observation logs
(`sent`, `closed`, `logged`) carried next to the program state, and the results
the network layer hands back are explicit inputs (`PollEvents`, `NetEnv`).
-/

namespace Vice

/-! ## Constants of `drive.h` -/

/-- Constants that `drive-status.c` takes from `drive.h`.  The header is not
part of the sources at hand, so the values are parameters of the embedding. -/
structure Consts where
  NUM_DISK_UNITS : Nat
  DRIVE_UNIT_MIN : Int
  DRIVE_UNIT_MAX : Int
  DRIVE_TYPE_NONE : Nat
  BRA_MOTOR_ON : Nat

/-- Modelled from the spec: the values of the `drive.h` constants, which is not
among the sources.  The spec fixes the external identifier of unit 0 as `8`
(`8 1 1 18 1 0`); four units, identifiers 8 to 11, drive type 0 for "none" and
mask `0x04` for the motor-active bit are the values of the VICE headers. -/
def viceConsts : Consts :=
  { NUM_DISK_UNITS := 4
    DRIVE_UNIT_MIN := 8
    DRIVE_UNIT_MAX := 11
    DRIVE_TYPE_NONE := 0
    BRA_MOTOR_ON := 4 }

/-! ## Hardware collaborator (read only) -/

/-- The fields of `drive_t` that `drive_status_get` reads. -/
structure drive_t where
  byte_ready_active : Nat
  led_status : Nat
  current_half_track : Int
  read_write_mode : Int
deriving DecidableEq

/-- The fields of `diskunit_context_t` that are read; `drive0` is `drives[0]`. -/
structure diskunit_context_t where
  enable : Int
  type : Nat
  drive0 : drive_t
deriving DecidableEq

/-- The array `diskunit_context[]`; `none` is a `NULL` entry. -/
abbrev Hardware := Nat → Option diskunit_context_t

/-! ## `drive-status.h` / `drive-status.c` -/

/-- The record `drive_status_t`: six `int` fields, no padding. -/
structure drive_status_t where
  drive_num : Int
  motor_on : Int
  led_on : Int
  track : Int
  rw_mode : Int
  step_event : Int
deriving DecidableEq

/-- The two static arrays of `drive-status.c`. -/
@[ext]
structure Registry where
  drive_status_motor : Nat → Int
  drive_status_step : Nat → Int

/-- Two's complement wrap of a C `int` (32 bit). -/
def wrap32 (x : Int) : Int := (x + 2 ^ 31) % 2 ^ 32 - 2 ^ 31

/-- Source `drive_status_reset_unit`, lines 40-48. -/
def drive_status_reset_unit (c : Consts) (unit : Nat) (r : Registry) : Registry :=
  if unit ≥ c.NUM_DISK_UNITS then r
  else
    { drive_status_motor := Function.update r.drive_status_motor unit (-1)
      drive_status_step := Function.update r.drive_status_step unit 0 }

/-- Source `drive_status_init`, lines 31-38: the loop over all units. -/
def drive_status_init (c : Consts) (r : Registry) : Registry :=
  (List.range c.NUM_DISK_UNITS).foldl (fun acc i => drive_status_reset_unit c i acc) r

/-- Source `drive_status_set_motor`, lines 50-57. -/
def drive_status_set_motor (c : Consts) (unit : Nat) (motor_on : Int) (r : Registry) :
    Registry :=
  if unit ≥ c.NUM_DISK_UNITS then r
  else
    { r with
      drive_status_motor :=
        Function.update r.drive_status_motor unit (if motor_on ≠ 0 then 1 else 0) }

/-- Source `drive_status_set_step_event`, lines 59-66. -/
def drive_status_set_step_event (c : Consts) (unit : Nat) (r : Registry) : Registry :=
  if unit ≥ c.NUM_DISK_UNITS then r
  else { r with drive_status_step := Function.update r.drive_status_step unit 1 }

/-- Source `drive_status_drive_to_unit`, lines 68-75. -/
def drive_status_drive_to_unit (c : Consts) (drive_num : Int) : Int :=
  if drive_num < c.DRIVE_UNIT_MIN ∨ drive_num > c.DRIVE_UNIT_MAX then -1
  else drive_num - c.DRIVE_UNIT_MIN

/-- Source `drive_status_unit_active`, lines 77-88; the result is a C truth
value, 0 or 1. -/
def drive_status_unit_active (c : Consts) (hw : Hardware) (unit : Nat) : Int :=
  if unit ≥ c.NUM_DISK_UNITS then 0
  else
    match hw unit with
    | none => 0
    | some ctx => if ctx.enable ≠ 0 ∧ ctx.type ≠ c.DRIVE_TYPE_NONE then 1 else 0

/-- What a call of `drive_status_get` leaves behind: the return code, the
contents of `*status` and the registry. -/
@[ext]
structure GetResult where
  rc : Int
  status : drive_status_t
  reg : Registry

/-- Source `drive_status_get`, lines 90-134.  `status` is the record the
pointer argument refers to (callers never pass `NULL`); on failure it is left
as it was.  `(current_half_track + 1)` is computed in `int`. -/
def drive_status_get (c : Consts) (hw : Hardware) (unit : Nat) (status : drive_status_t)
    (clear_step : Int) (r : Registry) : GetResult :=
  if unit ≥ c.NUM_DISK_UNITS then ⟨-1, status, r⟩
  else if drive_status_unit_active c hw unit = 0 then ⟨-1, status, r⟩
  else
    match hw unit with
    | none => ⟨-1, status, r⟩ -- not reached: an active unit has a context
    | some ctx =>
      let drive := ctx.drive0
      let cached := r.drive_status_motor unit
      let motor_on : Int :=
        if cached < 0 then (if drive.byte_ready_active &&& c.BRA_MOTOR_ON ≠ 0 then 1 else 0)
        else cached
      let r1 : Registry :=
        if cached < 0 then
          { r with drive_status_motor := Function.update r.drive_status_motor unit motor_on }
        else r
      let led_on : Int := if drive.led_status &&& 1 ≠ 0 then 1 else 0
      let track : Int :=
        if drive.current_half_track > 0 then (wrap32 (drive.current_half_track + 1)).tdiv 2
        else 0
      let rw_mode : Int :=
        if motor_on = 0 then 0 else if drive.read_write_mode ≠ 0 then 1 else 2
      let step_event := r1.drive_status_step unit
      let r2 : Registry :=
        if clear_step ≠ 0 then
          { r1 with drive_status_step := Function.update r1.drive_status_step unit 0 }
        else r1
      ⟨0,
       { drive_num := c.DRIVE_UNIT_MIN + unit
         motor_on := motor_on
         led_on := led_on
         track := track
         rw_mode := rw_mode
         step_event := step_event },
       r2⟩

/-! ## `monitor_drivestatus_server.c` -/

/-- The static variables of `monitor_drivestatus_server.c`.  A socket pointer is
`none` (`NULL`) or a handle. -/
@[ext]
structure Server where
  listen_socket : Option Nat
  client_socket : Option Nat
  server_address : Option String
  server_enabled : Int
  prev_status : Nat → drive_status_t
  prev_valid : Nat → Int

/-- Program state of both translation units together with the observation
logs: `sent` lists the calls of `vice_network_send` (socket argument and
bytes), `closed` the sockets handed to `vice_network_socket_close`, `logged`
the messages handed to `log_error`. -/
@[ext]
structure World where
  srv : Server
  reg : Registry
  sent : List (Option Nat × String)
  closed : List Nat
  logged : List String

/-- What the network layer answers during one call of
`monitor_drivestatus_poll`: readiness of the listening socket, the result of
`vice_network_accept`, readiness of the client socket, and the result `r` of
`vice_network_receive`. -/
structure PollEvents where
  listen_ready : Bool
  accepted : Option Nat
  client_ready : Bool
  received : Int

/-- What the network layer answers during activation:
`vice_network_address_generate` and `vice_network_server`. -/
structure NetEnv where
  address_generate : String → Option Nat
  network_server : Nat → Option Nat

/-- A local `drive_status_t status;` before anything is stored in it.  The
callers read it only after a successful `drive_status_get` has filled it. -/
def uninit_status : drive_status_t := ⟨0, 0, 0, 0, 0, 0⟩

/-- The error line of `drivestatus_server_send_error`. -/
def error_line : String := "ERROR: INVALID DRIVE\n"

/-- The `sprintf` of `drivestatus_server_send_line`, lines 69-75. -/
def format_line (s : drive_status_t) : String :=
  toString s.drive_num ++ " " ++ toString s.motor_on ++ " " ++ toString s.led_on ++ " "
    ++ toString s.track ++ " " ++ toString s.rw_mode ++ " " ++ toString s.step_event ++ "\n"

/-- Source `drivestatus_server_reset_prev`, lines 48-54. -/
def drivestatus_server_reset_prev (c : Consts) (s : Server) : Server :=
  { s with
    prev_valid :=
      (List.range c.NUM_DISK_UNITS).foldl (fun pv i => Function.update pv i 0) s.prev_valid }

/-- Source `drivestatus_server_close_client`, lines 56-63. -/
def drivestatus_server_close_client (c : Consts) (w : World) : World :=
  let w1 : World :=
    match w.srv.client_socket with
    | some sock => { w with closed := w.closed ++ [sock], srv := { w.srv with client_socket := none } }
    | none => w
  { w1 with srv := drivestatus_server_reset_prev c w1.srv }

/-- Source `drivestatus_server_send_line`, lines 65-77. -/
def drivestatus_server_send_line (status : drive_status_t) (w : World) : World :=
  { w with sent := w.sent ++ [(w.srv.client_socket, format_line status)] }

/-- Source `drivestatus_server_send_error`, lines 79-83. -/
def drivestatus_server_send_error (w : World) : World :=
  { w with sent := w.sent ++ [(w.srv.client_socket, error_line)] }

/-- Body of the loop of `drivestatus_server_send_initial`, lines 91-99, for one
unit; the second component is the local `any`. -/
def send_initial_unit (c : Consts) (hw : Hardware) (acc : World × Int) (unit : Nat) :
    World × Int :=
  let w := acc.1
  let g := drive_status_get c hw unit uninit_status 1 w.reg
  if g.rc ≠ 0 then ({ w with reg := g.reg }, acc.2)
  else
    let w1 := drivestatus_server_send_line g.status { w with reg := g.reg }
    ({ w1 with
       srv :=
         { w1.srv with
           prev_status := Function.update w1.srv.prev_status unit { g.status with step_event := 0 }
           prev_valid := Function.update w1.srv.prev_valid unit 1 } },
     1)

/-- Source `drivestatus_server_send_initial`, lines 85-105. -/
def drivestatus_server_send_initial (c : Consts) (hw : Hardware) (w : World) : World :=
  let acc := (List.range c.NUM_DISK_UNITS).foldl (send_initial_unit c hw) (w, 0)
  if acc.2 = 0 then drivestatus_server_send_error acc.1 else acc.1

/-- Source `drivestatus_server_poll_listen`, lines 107-129. -/
def drivestatus_server_poll_listen (c : Consts) (hw : Hardware) (ev : PollEvents)
    (w : World) : World :=
  match w.srv.listen_socket with
  | none => w
  | some _ =>
    if ev.listen_ready = false then w
    else
      match ev.accepted with
      | none => w
      | some client =>
        let w1 := drivestatus_server_close_client c w
        let w2 : World := { w1 with srv := { w1.srv with client_socket := some client } }
        let w3 : World := { w2 with srv := drivestatus_server_reset_prev c w2.srv }
        drivestatus_server_send_initial c hw w3

/-- Body of the push loop of `monitor_drivestatus_poll`, lines 153-173, for one
unit. -/
def poll_push_unit (c : Consts) (hw : Hardware) (w : World) (unit : Nat) : World :=
  let g := drive_status_get c hw unit uninit_status 0 w.reg
  let w0 : World := { w with reg := g.reg }
  if g.rc ≠ 0 then
    if w0.srv.prev_valid unit ≠ 0 then
      let w1 := drivestatus_server_send_error w0
      { w1 with srv := { w1.srv with prev_valid := Function.update w1.srv.prev_valid unit 0 } }
    else w0
  else if w0.srv.prev_valid unit = 0 ∨ w0.srv.prev_status unit ≠ g.status then
    let w1 := drivestatus_server_send_line g.status w0
    let g2 : GetResult :=
      if g.status.step_event ≠ 0 then
        let h := drive_status_get c hw unit g.status 1 w1.reg
        { h with status := { h.status with step_event := 0 } }
      else ⟨0, g.status, w1.reg⟩
    { w1 with
      reg := g2.reg
      srv :=
        { w1.srv with
          prev_status := Function.update w1.srv.prev_status unit g2.status
          prev_valid := Function.update w1.srv.prev_valid unit 1 } }
  else w0

/-- Source `monitor_drivestatus_poll`, lines 131-176. -/
def monitor_drivestatus_poll (c : Consts) (hw : Hardware) (ev : PollEvents) (w : World) :
    World :=
  if w.srv.server_enabled = 0 then w
  else
    let w1 := drivestatus_server_poll_listen c hw ev w
    match w1.srv.client_socket with
    | none => w1
    | some _ =>
      if ev.client_ready = true ∧ ev.received ≤ 0 then drivestatus_server_close_client c w1
      else (List.range c.NUM_DISK_UNITS).foldl (poll_push_unit c hw) w1

/-- Source `drivestatus_server_activate`, lines 178-209; the second component
is the returned `error`. -/
def drivestatus_server_activate (env : NetEnv) (w : World) : World × Int :=
  match w.srv.server_address with
  | none => ({ w with logged := w.logged ++ ["drivestatus server address not set"] }, 1)
  | some a =>
    match env.address_generate a with
    | none => ({ w with logged := w.logged ++ ["drivestatus server address invalid"] }, 1)
    | some addr =>
      match env.network_server addr with
      | none =>
        ({ w with
           srv := { w.srv with listen_socket := none }
           logged := w.logged ++ ["could not start drivestatus server socket"] }, 1)
      | some l => ({ w with srv := { w.srv with listen_socket := some l } }, 0)

/-- Source `drivestatus_server_deactivate`, lines 211-217. -/
def drivestatus_server_deactivate (w : World) : World :=
  match w.srv.listen_socket with
  | some l => { w with closed := w.closed ++ [l], srv := { w.srv with listen_socket := none } }
  | none => w

/-- Source `set_server_enabled`, lines 219-238; the second component is the
return value. -/
def set_server_enabled (env : NetEnv) (value : Int) (w : World) : World × Int :=
  let val : Int := if value ≠ 0 then 1 else 0
  if val = 0 then
    let w1 := if w.srv.server_enabled ≠ 0 then drivestatus_server_deactivate w else w
    ({ w1 with srv := { w1.srv with server_enabled := 0 } }, 0)
  else
    let a : World × Int :=
      if w.srv.server_enabled = 0 then drivestatus_server_activate env w else (w, 0)
    if w.srv.server_enabled = 0 ∧ a.2 < 0 then (a.1, -1)
    else ({ a.1 with srv := { a.1.srv with server_enabled := 1 } }, 0)

/-- Source `set_server_address`, lines 240-258; `name` is `none` for `NULL`. -/
def set_server_address (env : NetEnv) (name : Option String) (w : World) : World × Int :=
  if w.srv.server_address ≠ none ∧ name ≠ none ∧ name = w.srv.server_address then (w, 0)
  else
    let w1 := if w.srv.server_enabled ≠ 0 then drivestatus_server_deactivate w else w
    let w2 : World := { w1 with srv := { w1.srv with server_address := name } }
    if w2.srv.server_enabled ≠ 0 then drivestatus_server_activate env w2 else (w2, 0)

/-- Source `monitor_drivestatus_resources_shutdown`, lines 281-286. -/
def monitor_drivestatus_resources_shutdown (w : World) : World :=
  let w1 := drivestatus_server_deactivate w
  { w1 with srv := { w1.srv with server_address := none } }

/-! ## Notions used to state the properties -/

/-- A new client is accepted in this call: there is a listening socket, it is
ready, and `vice_network_accept` hands back a socket. -/
def accepts (w : World) (ev : PollEvents) : Prop :=
  w.srv.listen_socket ≠ none ∧ ev.listen_ready = true ∧ ev.accepted ≠ none

/-- The client is readable and the receive result is not positive. -/
def hangs_up (ev : PollEvents) : Prop :=
  ev.client_ready = true ∧ ev.received ≤ 0

/-- The units for which `drive_status_unit_active` holds, in increasing order. -/
def active_units (c : Consts) (hw : Hardware) : List Nat :=
  (List.range c.NUM_DISK_UNITS).filter (fun u => drive_status_unit_active c hw u ≠ 0)

/-- What the push step for unit `unit` adds to the send log of `w`. -/
def pushed (c : Consts) (hw : Hardware) (w : World) (unit : Nat) : List (Option Nat × String) :=
  (poll_push_unit c hw w unit).sent.drop w.sent.length

/-- The two records differ in at least one of the six fields (what the
`memcmp` of the push loop detects). -/
def fields_differ (a b : drive_status_t) : Prop :=
  a.drive_num ≠ b.drive_num ∨ a.motor_on ≠ b.motor_on ∨ a.led_on ≠ b.led_on ∨
    a.track ≠ b.track ∨ a.rw_mode ≠ b.rw_mode ∨ a.step_event ≠ b.step_event

instance (a b : drive_status_t) : Decidable (fields_differ a b) := by
  unfold fields_differ
  infer_instance

instance (w : World) (ev : PollEvents) : Decidable (accepts w ev) := by
  unfold accepts
  infer_instance

instance (ev : PollEvents) : Decidable (hangs_up ev) := by
  unfold hangs_up
  infer_instance

/-! ## A concrete scenario

Unit 0 is the only drive: enabled, of a type other than "none", head on
half-track 35, read/write flag set, LED bit on.  The server is enabled and
listening on socket 3 with no client; the motor cache of unit 0 is On and its
step flag is set. -/

/-- Hardware of the scenario. -/
def scenario_hw : Hardware := fun u =>
  if u = 0 then
    some { enable := 1, type := 1541,
           drive0 := { byte_ready_active := 4, led_status := 1, current_half_track := 35,
                       read_write_mode := 1 } }
  else none

/-- Start state of the scenario. -/
def scenario_world : World :=
  { srv :=
      { listen_socket := some 3
        client_socket := none
        server_address := some "ip4://127.0.0.1:6511"
        server_enabled := 1
        prev_status := fun _ => uninit_status
        prev_valid := fun _ => 0 }
    reg :=
      { drive_status_motor := fun u => if u = 0 then 1 else -1
        drive_status_step := fun u => if u = 0 then 1 else 0 }
    sent := []
    closed := []
    logged := [] }

/-- A poll in which the listening socket is ready and socket 7 is accepted; the
new client is not readable. -/
def ev_accept : PollEvents :=
  { listen_ready := true, accepted := some 7, client_ready := false, received := 0 }

/-- A poll in which nothing happens on the network. -/
def ev_quiet : PollEvents :=
  { listen_ready := false, accepted := none, client_ready := false, received := 0 }

/-- A poll in which the client is readable and the receive result is 0. -/
def ev_hangup : PollEvents :=
  { listen_ready := false, accepted := none, client_ready := true, received := 0 }

/-- The world of the scenario once client 7 is connected and has been sent the
initial line. -/
def scenario_connected : World :=
  monitor_drivestatus_poll viceConsts scenario_hw ev_accept scenario_world

/-- The connected scenario after a head step of unit 0. -/
def scenario_stepped : World :=
  { scenario_connected with
    reg := drive_status_set_step_event viceConsts 0 scenario_connected.reg }

/-- The connected scenario after `drive_status_reset_unit 0`: the motor cache of
unit 0 is Unknown again while its cache entry is still valid. -/
def scenario_after_reset : World :=
  { scenario_connected with
    reg := drive_status_reset_unit viceConsts 0 scenario_connected.reg }

/-- The connected scenario seen with no drive attached at all. -/
def no_drives : Hardware := fun _ => none

/-- A network layer in which every address is well formed but no listening
socket can be created (the port is taken). -/
def env_bind_fails : NetEnv :=
  { address_generate := fun _ => some 0, network_server := fun _ => none }

/-- A network layer in which activation succeeds with listening socket 3. -/
def env_bind_ok : NetEnv :=
  { address_generate := fun _ => some 0, network_server := fun _ => some 3 }

/-- The server right after resource registration: disabled, default address. -/
def disabled_world : World :=
  { srv :=
      { listen_socket := none
        client_socket := none
        server_address := some "ip4://127.0.0.1:6511"
        server_enabled := 0
        prev_status := fun _ => uninit_status
        prev_valid := fun _ => 0 }
    reg :=
      { drive_status_motor := fun _ => -1
        drive_status_step := fun _ => 0 }
    sent := []
    closed := []
    logged := [] }

/-! ## Sequences of registry operations -/

/-- A call into `drive-status.c` that may change the registry.  `get` carries
the hardware state at the time of the call. -/
inductive RegOp where
  | get (hw : Hardware) (unit : Nat) (status : drive_status_t) (clear_step : Int)
  | set_step_event (unit : Nat)
  | set_motor (unit : Nat) (motor_on : Int)
  | reset_unit (unit : Nat)
  | init

/-- The registry after one operation. -/
def RegOp.apply (c : Consts) : RegOp → Registry → Registry
  | .get hw unit status clear_step, r => (drive_status_get c hw unit status clear_step r).reg
  | .set_step_event unit, r => drive_status_set_step_event c unit r
  | .set_motor unit motor_on, r => drive_status_set_motor c unit motor_on r
  | .reset_unit unit, r => drive_status_reset_unit c unit r
  | .init, r => drive_status_init c r

/-- The registry after a sequence of operations, first to last. -/
def run_ops (c : Consts) (ops : List RegOp) (r : Registry) : Registry :=
  ops.foldl (fun acc op => op.apply c acc) r

/-- The operation is a `drive_status_set_motor` or `drive_status_reset_unit` of
unit `u`, or a `drive_status_init`. -/
def RegOp.overrides_motor (u : Nat) : RegOp → Prop
  | .set_motor unit _ => unit = u
  | .reset_unit unit => unit = u
  | .init => True
  | _ => False

instance (u : Nat) (op : RegOp) : Decidable (op.overrides_motor u) := by
  cases op <;> unfold RegOp.overrides_motor <;> infer_instance

/-- The hardware of the scenario with the motor-active bit of unit 0 off. -/
def scenario_hw_motor_off : Hardware := fun u =>
  if u = 0 then
    some { enable := 1, type := 1541,
           drive0 := { byte_ready_active := 0, led_status := 0, current_half_track := 2,
                       read_write_mode := 0 } }
  else none

/-- Registry calls that follow the first read in the motor-cache example: a head
step, a read of unit 0 while the hardware motor bit is off, an override and a
reset of other units, and a clearing read. -/
def scenario_ops : List RegOp :=
  [RegOp.set_step_event 0, RegOp.get scenario_hw_motor_off 0 uninit_status 0,
    RegOp.set_motor 1 0, RegOp.reset_unit 2, RegOp.get scenario_hw_motor_off 0 uninit_status 1]

/-- Hardware whose unit 0 reports the largest C `int` as half-track. -/
def hw_track_max : Hardware := fun u =>
  if u = 0 then
    some { enable := 1, type := 1541,
           drive0 := { byte_ready_active := 4, led_status := 1,
                       current_half_track := 2147483647, read_write_mode := 1 } }
  else none

/-- The registry when the program starts: C zero-initialises the two static
arrays. -/
def registry_start : Registry :=
  { drive_status_motor := fun _ => 0
    drive_status_step := fun _ => 0 }

/-! ## Sequences of calls into the whole subsystem -/

/-- The program state when the process starts: C zero-initialises every static
variable of both translation units; nothing has been sent, closed or logged. -/
def initial_world : World :=
  { srv :=
      { listen_socket := none
        client_socket := none
        server_address := none
        server_enabled := 0
        prev_status := fun _ => ⟨0, 0, 0, 0, 0, 0⟩
        prev_valid := fun _ => 0 }
    reg := registry_start
    sent := []
    closed := []
    logged := [] }

/-- A call into the subsystem from outside: a poll (with the hardware state and
the network answers of that moment), one of the two resource setters, a
registry call, or the shutdown hook. -/
inductive SysOp where
  | poll (hw : Hardware) (ev : PollEvents)
  | set_enabled (env : NetEnv) (value : Int)
  | set_address (env : NetEnv) (name : Option String)
  | reg (op : RegOp)
  | shutdown

/-- The world after one call. -/
def SysOp.apply (c : Consts) : SysOp → World → World
  | .poll hw ev, w => monitor_drivestatus_poll c hw ev w
  | .set_enabled env value, w => (set_server_enabled env value w).1
  | .set_address env name, w => (set_server_address env name w).1
  | .reg op, w => { w with reg := op.apply c w.reg }
  | .shutdown, w => monitor_drivestatus_resources_shutdown w

/-- The world after a sequence of calls, first to last. -/
def run_sys (c : Consts) (ops : List SysOp) (w : World) : World :=
  ops.foldl (fun acc op => op.apply c acc) w

/-- A run from program start: the default address is set, the registry is
initialised, the server is enabled (listening socket 3), and a poll accepts
client 7 and pushes the state of unit 0. -/
def scenario_calls : List SysOp :=
  [SysOp.set_address env_bind_ok (some "ip4://127.0.0.1:6511"), SysOp.reg RegOp.init,
    SysOp.set_enabled env_bind_ok 1, SysOp.poll scenario_hw ev_accept]

/-- The run of `scenario_calls` followed by an address change whose bind fails:
the old listening socket is closed and no new one is opened, while the server
stays enabled and client 7 stays connected. -/
def listener_lost_calls : List SysOp :=
  scenario_calls ++ [SysOp.set_address env_bind_fails (some "ip4://127.0.0.1:6512")]

/-- The run of `scenario_calls` followed by a disable: client 7 is kept. -/
def disabled_client_calls : List SysOp :=
  scenario_calls ++ [SysOp.set_enabled env_bind_ok 0]

/-- Every motor cache entry is -1, 0 or 1 and every step flag is 0 or 1. -/
def RegWF (r : Registry) : Prop :=
  ∀ u, (r.drive_status_motor u = -1 ∨ r.drive_status_motor u = 0 ∨ r.drive_status_motor u = 1) ∧
    (r.drive_status_step u = 0 ∨ r.drive_status_step u = 1)

/-- What holds in every state the subsystem can reach: the registry holds only
the values the code writes, no stored cache record carries a step event, and a
valid cache entry implies a client. -/
def SysInv (c : Consts) (w : World) : Prop :=
  RegWF w.reg ∧ (∀ u, (w.srv.prev_status u).step_event = 0) ∧
    (∀ u, u < c.NUM_DISK_UNITS → w.srv.prev_valid u ≠ 0 → w.srv.client_socket ≠ none)

/-- The scenario with a registry fresh from `drive_status_init`: every motor
cache entry Unknown. -/
def fresh_world : World :=
  { scenario_world with reg := drive_status_init viceConsts registry_start }

/-- The record has `motor_on`, `led_on` and `step_event` in 0..1 and `rw_mode`
in 0..2. -/
def status_in_range (s : drive_status_t) : Prop :=
  (s.motor_on = 0 ∨ s.motor_on = 1) ∧ (s.led_on = 0 ∨ s.led_on = 1) ∧
    (s.rw_mode = 0 ∨ s.rw_mode = 1 ∨ s.rw_mode = 2) ∧ (s.step_event = 0 ∨ s.step_event = 1)

/-- The documented grammar of a status line,
`<drive_num> <motor_on:0|1> <led_on:0|1> <track:int> <rw_mode:0|1|2> <step_event:0|1>`
followed by a newline: six decimal numbers with the stated ranges, separated by
single spaces. -/
def conforms_grammar (line : String) : Prop :=
  ∃ s : drive_status_t, status_in_range s ∧
    line = String.intercalate " "
      [toString s.drive_num, toString s.motor_on, toString s.led_on, toString s.track,
        toString s.rw_mode, toString s.step_event] ++ "\n"

/-- Every line in the send log is the error line or a status line of the
documented grammar. -/
def SentWF (w : World) : Prop :=
  ∀ p, p ∈ w.sent → p.2 = error_line ∨ conforms_grammar p.2

/-! ## Unit-local view of the loops (used in the proofs)

Each loop body reads and writes the four arrays only at its own unit.  A
`UnitCell` collects the four entries of one unit; `putCell` writes a cell back
and appends lines to the send log. -/

/-- The motor value a successful read reports: the cache, or the hardware bit
when the cache is negative. -/
def motor_read (c : Consts) (ctx : diskunit_context_t) (cached : Int) : Int :=
  if cached < 0 then (if ctx.drive0.byte_ready_active &&& c.BRA_MOTOR_ON ≠ 0 then 1 else 0)
  else cached

/-- The record a successful read of unit `u` produces from cache value `m` and
step flag `s`. -/
def status_read (c : Consts) (ctx : diskunit_context_t) (u : Nat) (m s : Int) :
    drive_status_t :=
  { drive_num := c.DRIVE_UNIT_MIN + u
    motor_on := motor_read c ctx m
    led_on := if ctx.drive0.led_status &&& 1 ≠ 0 then 1 else 0
    track :=
      if ctx.drive0.current_half_track > 0 then
        (wrap32 (ctx.drive0.current_half_track + 1)).tdiv 2
      else 0
    rw_mode :=
      if motor_read c ctx m = 0 then 0 else if ctx.drive0.read_write_mode ≠ 0 then 1 else 2
    step_event := s }

/-- The entries of one unit in the four arrays. -/
structure UnitCell where
  motor : Int
  step : Int
  valid : Int
  prev : drive_status_t

/-- The entries of unit `u` in world `w`. -/
def cell (w : World) (u : Nat) : UnitCell :=
  ⟨w.reg.drive_status_motor u, w.reg.drive_status_step u, w.srv.prev_valid u,
    w.srv.prev_status u⟩

/-- Store a cell at unit `u` and send the given lines to the current client. -/
def putCell (w : World) (u : Nat) (r : UnitCell × List String) : World :=
  { w with
    reg :=
      { drive_status_motor := Function.update w.reg.drive_status_motor u r.1.motor
        drive_status_step := Function.update w.reg.drive_status_step u r.1.step }
    srv :=
      { w.srv with
        prev_status := Function.update w.srv.prev_status u r.1.prev
        prev_valid := Function.update w.srv.prev_valid u r.1.valid }
    sent := w.sent ++ r.2.map (fun l => (w.srv.client_socket, l)) }

/-- The push step of one unit on its cell: the new cell and the lines sent. -/
def stepCell (c : Consts) (hw : Hardware) (u : Nat) (x : UnitCell) : UnitCell × List String :=
  if drive_status_unit_active c hw u = 0 then
    if x.valid ≠ 0 then ({ x with valid := 0 }, [error_line]) else (x, [])
  else
    match hw u with
    | none => (x, [])
    | some ctx =>
      if x.valid = 0 ∨ x.prev ≠ status_read c ctx u x.motor x.step then
        (⟨motor_read c ctx x.motor, 0, 1, status_read c ctx u x.motor 0⟩,
          [format_line (status_read c ctx u x.motor x.step)])
      else ({ x with motor := motor_read c ctx x.motor }, [])

/-- The initial-push step of one unit on its cell. -/
def initCell (c : Consts) (hw : Hardware) (u : Nat) (x : UnitCell) : UnitCell × List String :=
  if drive_status_unit_active c hw u = 0 then (x, [])
  else
    match hw u with
    | none => (x, [])
    | some ctx =>
      (⟨motor_read c ctx x.motor, 0, 1, status_read c ctx u x.motor 0⟩,
        [format_line (status_read c ctx u x.motor x.step)])

/-- The world after running a unit-local step `F` for the units below `n`. -/
def loopWorld (F : Nat → UnitCell → UnitCell × List String) (w : World) (n : Nat) : World :=
  { w with
    reg :=
      { drive_status_motor := fun v =>
          if v < n then (F v (cell w v)).1.motor else w.reg.drive_status_motor v
        drive_status_step := fun v =>
          if v < n then (F v (cell w v)).1.step else w.reg.drive_status_step v }
    srv :=
      { w.srv with
        prev_status := fun v =>
          if v < n then (F v (cell w v)).1.prev else w.srv.prev_status v
        prev_valid := fun v =>
          if v < n then (F v (cell w v)).1.valid else w.srv.prev_valid v }
    sent :=
      w.sent ++
        (List.range n).flatMap
          (fun v => (F v (cell w v)).2.map (fun l => (w.srv.client_socket, l))) }

/-- The world in which the initial push starts once client `cl` has been
accepted: the old client closed, `cl` installed, every cache entry invalid. -/
def accept_world (c : Consts) (w : World) (cl : Nat) : World :=
  { w with
    closed := w.closed ++ w.srv.client_socket.toList
    srv :=
      { w.srv with
        client_socket := some cl
        prev_valid := fun v => if v < c.NUM_DISK_UNITS then 0 else w.srv.prev_valid v } }

/-- How one poll may change the entries of unit `u`: the motor cache stays, or
was Unknown and now holds the hardware motor bit of the active unit; the step
flag stays or is 0; the cached record stays or has `step_event = 0`. -/
def CellRel (c : Consts) (hw : Hardware) (u : Nat) (x y : UnitCell) : Prop :=
  (y.motor = x.motor ∨
      (x.motor < 0 ∧ ∃ ctx, hw u = some ctx ∧ drive_status_unit_active c hw u ≠ 0 ∧
        y.motor = (if ctx.drive0.byte_ready_active &&& c.BRA_MOTOR_ON ≠ 0 then 1 else 0))) ∧
    (y.step = x.step ∨ y.step = 0) ∧
    (y.prev = x.prev ∨ y.prev.step_event = 0)

/-- The world after the initial push to the freshly accepted client `cl`. -/
def init_world (c : Consts) (hw : Hardware) (w : World) (cl : Nat) : World :=
  if active_units c hw = [] then
    drivestatus_server_send_error
      (loopWorld (initCell c hw) (accept_world c w cl) c.NUM_DISK_UNITS)
  else loopWorld (initCell c hw) (accept_world c w cl) c.NUM_DISK_UNITS

/-! ## Lemmas on `drive_status_get` -/

theorem unit_active_lt {c : Consts} {hw : Hardware} {u : Nat}
    (h : drive_status_unit_active c hw u ≠ 0) : u < c.NUM_DISK_UNITS := by
  unfold drive_status_unit_active at h
  by_contra hlt
  exact h (if_pos (Nat.le_of_not_lt hlt))

theorem unit_active_ctx {c : Consts} {hw : Hardware} {u : Nat}
    (h : drive_status_unit_active c hw u ≠ 0) : ∃ ctx, hw u = some ctx := by
  unfold drive_status_unit_active at h
  cases hctx : hw u with
  | none => simp [hctx] at h
  | some ctx => exact ⟨ctx, rfl⟩

theorem get_inactive (c : Consts) (hw : Hardware) (u : Nat) (st : drive_status_t) (cl : Int)
    (r : Registry) (h : drive_status_unit_active c hw u = 0) :
    drive_status_get c hw u st cl r = ⟨-1, st, r⟩ := by
  unfold drive_status_get
  split
  · rfl
  · simp [h]

theorem get_rc (c : Consts) (hw : Hardware) (u : Nat) (st : drive_status_t) (cl : Int)
    (r : Registry) :
    (drive_status_get c hw u st cl r).rc = if drive_status_unit_active c hw u = 0 then -1 else 0 := by
  by_cases h : drive_status_unit_active c hw u = 0
  · rw [get_inactive c hw u st cl r h, if_pos h]
  · obtain ⟨ctx, hctx⟩ := unit_active_ctx h
    have hlt := unit_active_lt h
    unfold drive_status_get
    rw [if_neg (Nat.not_le_of_lt hlt), if_neg h, if_neg h]
    simp only [hctx]

theorem get_rc_ne_zero_iff (c : Consts) (hw : Hardware) (u : Nat) (st : drive_status_t)
    (cl : Int) (r : Registry) :
    (drive_status_get c hw u st cl r).rc ≠ 0 ↔ drive_status_unit_active c hw u = 0 := by
  rw [get_rc]
  split <;> simp_all

theorem motor_read_idem (c : Consts) (ctx : diskunit_context_t) (m : Int) (h : 0 ≤ m) :
    motor_read c ctx m = m := by
  unfold motor_read
  rw [if_neg (not_lt.mpr h)]

theorem motor_read_nonneg (c : Consts) (ctx : diskunit_context_t) (m : Int) :
    0 ≤ motor_read c ctx m := by
  unfold motor_read
  split
  · split <;> decide
  · omega

theorem get_active (c : Consts) (hw : Hardware) (u : Nat) (st : drive_status_t) (cl : Int)
    (r : Registry) (ctx : diskunit_context_t) (hctx : hw u = some ctx)
    (h : drive_status_unit_active c hw u ≠ 0) :
    drive_status_get c hw u st cl r =
      ⟨0, status_read c ctx u (r.drive_status_motor u) (r.drive_status_step u),
        { drive_status_motor :=
            Function.update r.drive_status_motor u (motor_read c ctx (r.drive_status_motor u))
          drive_status_step :=
            if cl ≠ 0 then Function.update r.drive_status_step u 0 else r.drive_status_step }⟩ := by
  have hlt := unit_active_lt h
  unfold drive_status_get
  rw [if_neg (Nat.not_le_of_lt hlt), if_neg h]
  simp only [hctx]
  by_cases hm : r.drive_status_motor u < 0 <;> by_cases hc : cl = 0 <;>
    simp [status_read, motor_read, hm, hc]

/-! ## The push step, case by case -/

theorem status_read_step_event (c : Consts) (ctx : diskunit_context_t) (u : Nat) (m s : Int) :
    (status_read c ctx u m s).step_event = s := rfl

theorem status_read_clear (c : Consts) (ctx : diskunit_context_t) (u : Nat) (m s : Int) :
    { status_read c ctx u m s with step_event := 0 } = status_read c ctx u m 0 := rfl

theorem status_read_motor_read (c : Consts) (ctx : diskunit_context_t) (u : Nat) (m s : Int) :
    status_read c ctx u (motor_read c ctx m) s = status_read c ctx u m s := by
  simp only [status_read, motor_read_idem c ctx _ (motor_read_nonneg c ctx m)]

theorem push_inactive_valid (c : Consts) (hw : Hardware) (w : World) (u : Nat)
    (h : drive_status_unit_active c hw u = 0) (hv : w.srv.prev_valid u ≠ 0) :
    poll_push_unit c hw w u =
      { w with
        sent := w.sent ++ [(w.srv.client_socket, error_line)]
        srv := { w.srv with prev_valid := Function.update w.srv.prev_valid u 0 } } := by
  unfold poll_push_unit
  simp [get_inactive c hw u _ _ _ h, hv, drivestatus_server_send_error]

theorem push_inactive_invalid (c : Consts) (hw : Hardware) (w : World) (u : Nat)
    (h : drive_status_unit_active c hw u = 0) (hv : w.srv.prev_valid u = 0) :
    poll_push_unit c hw w u = w := by
  unfold poll_push_unit
  simp [get_inactive c hw u _ _ _ h, hv]

theorem push_active_emit (c : Consts) (hw : Hardware) (w : World) (u : Nat)
    (ctx : diskunit_context_t) (hctx : hw u = some ctx)
    (h : drive_status_unit_active c hw u ≠ 0)
    (hd : w.srv.prev_valid u = 0 ∨
      w.srv.prev_status u ≠
        status_read c ctx u (w.reg.drive_status_motor u) (w.reg.drive_status_step u)) :
    poll_push_unit c hw w u =
      { w with
        sent := w.sent ++ [(w.srv.client_socket,
          format_line (status_read c ctx u (w.reg.drive_status_motor u) (w.reg.drive_status_step u)))]
        reg :=
          { drive_status_motor :=
              Function.update w.reg.drive_status_motor u
                (motor_read c ctx (w.reg.drive_status_motor u))
            drive_status_step := Function.update w.reg.drive_status_step u 0 }
        srv :=
          { w.srv with
            prev_status := Function.update w.srv.prev_status u
              (status_read c ctx u (w.reg.drive_status_motor u) 0)
            prev_valid := Function.update w.srv.prev_valid u 1 } } := by
  unfold poll_push_unit
  simp only [get_active c hw u _ _ _ ctx hctx h, drivestatus_server_send_line]
  rw [if_neg (by simp), if_pos hd]
  by_cases hs : w.reg.drive_status_step u = 0
  · simp [hs, status_read_step_event]
  · simp [hs, status_read_step_event, status_read_motor_read,
      motor_read_idem c ctx _ (motor_read_nonneg c ctx _)]
    rfl

theorem push_active_quiet (c : Consts) (hw : Hardware) (w : World) (u : Nat)
    (ctx : diskunit_context_t) (hctx : hw u = some ctx)
    (h : drive_status_unit_active c hw u ≠ 0)
    (hv : w.srv.prev_valid u ≠ 0)
    (he : w.srv.prev_status u =
        status_read c ctx u (w.reg.drive_status_motor u) (w.reg.drive_status_step u)) :
    poll_push_unit c hw w u =
      { w with
        reg :=
          { w.reg with
            drive_status_motor :=
              Function.update w.reg.drive_status_motor u
                (motor_read c ctx (w.reg.drive_status_motor u)) } } := by
  unfold poll_push_unit
  simp [get_active c hw u _ _ _ ctx hctx h, hv, he]

/-! ## The loop bodies act on one cell -/

theorem putCell_self (w : World) (u : Nat) : putCell w u (cell w u, []) = w := by
  simp [putCell, cell]

theorem cell_putCell_same (w : World) (u : Nat) (r : UnitCell × List String) :
    cell (putCell w u r) u = r.1 := by
  simp [putCell, cell]

theorem cell_putCell_other (w : World) (u v : Nat) (r : UnitCell × List String) (h : v ≠ u) :
    cell (putCell w u r) v = cell w v := by
  simp [putCell, cell, Function.update_noteq h]

theorem push_eq_putCell (c : Consts) (hw : Hardware) (w : World) (u : Nat) :
    poll_push_unit c hw w u = putCell w u (stepCell c hw u (cell w u)) := by
  by_cases h : drive_status_unit_active c hw u = 0
  · by_cases hv : w.srv.prev_valid u = 0
    · have hu : Function.update w.srv.prev_valid u 0 = w.srv.prev_valid := by
        conv_lhs => rw [← hv]
        exact Function.update_eq_self _ _
      rw [push_inactive_invalid c hw w u h hv]
      simp [stepCell, h, cell, hv, putCell, hu]
    · rw [push_inactive_valid c hw w u h hv]
      simp [stepCell, h, cell, hv, putCell]
  · obtain ⟨ctx, hctx⟩ := unit_active_ctx h
    by_cases hd : w.srv.prev_valid u = 0 ∨
        w.srv.prev_status u ≠
          status_read c ctx u (w.reg.drive_status_motor u) (w.reg.drive_status_step u)
    · rw [push_active_emit c hw w u ctx hctx h hd]
      simp only [stepCell, if_neg h, hctx, cell, if_pos hd, putCell, List.map_cons, List.map_nil]
    · have hv : w.srv.prev_valid u ≠ 0 := fun hv => hd (Or.inl hv)
      have he : w.srv.prev_status u =
          status_read c ctx u (w.reg.drive_status_motor u) (w.reg.drive_status_step u) := by
        by_contra he
        exact hd (Or.inr he)
      rw [push_active_quiet c hw w u ctx hctx h hv he]
      simp only [stepCell, if_neg h, hctx, cell, if_neg hd, putCell, List.map_nil,
        List.append_nil, Function.update_eq_self]

theorem init_eq_putCell (c : Consts) (hw : Hardware) (w : World) (a : Int) (u : Nat) :
    send_initial_unit c hw (w, a) u =
      (putCell w u (initCell c hw u (cell w u)),
        if drive_status_unit_active c hw u = 0 then a else 1) := by
  by_cases h : drive_status_unit_active c hw u = 0
  · unfold send_initial_unit
    simp [get_inactive c hw u _ _ _ h, initCell, h, putCell_self]
  · obtain ⟨ctx, hctx⟩ := unit_active_ctx h
    unfold send_initial_unit
    simp only [get_active c hw u _ _ _ ctx hctx h, drivestatus_server_send_line]
    simp [initCell, h, hctx, putCell, cell, status_read_clear]

theorem update_ite_lt {α : Type} (n : Nat) (f g : Nat → α) :
    Function.update (fun v => if v < n then f v else g v) n (f n) =
      fun v => if v < n + 1 then f v else g v := by
  funext v
  by_cases hv : v = n
  · subst hv
    simp
  · rw [Function.update_noteq hv]
    by_cases hlt : v < n
    · rw [if_pos hlt, if_pos (Nat.lt_succ_of_lt hlt)]
    · have : ¬ v < n + 1 := by omega
      rw [if_neg hlt, if_neg this]

theorem foldl_putCell (F : Nat → UnitCell → UnitCell × List String) (w : World) (n : Nat) :
    (List.range n).foldl (fun acc u => putCell acc u (F u (cell acc u))) w = loopWorld F w n := by
  induction n with
  | zero => simp [loopWorld]
  | succ n ih =>
    rw [List.range_succ, List.foldl_append, ih]
    simp only [List.foldl_cons, List.foldl_nil]
    have hc : cell (loopWorld F w n) n = cell w n := by
      simp [cell, loopWorld]
    rw [hc]
    simp only [putCell, loopWorld, List.range_succ, List.flatMap_append, List.flatMap_singleton,
      List.append_assoc]
    rw [update_ite_lt n (fun v => (F v (cell w v)).1.motor),
      update_ite_lt n (fun v => (F v (cell w v)).1.step),
      update_ite_lt n (fun v => (F v (cell w v)).1.prev),
      update_ite_lt n (fun v => (F v (cell w v)).1.valid)]

theorem push_loop_eq (c : Consts) (hw : Hardware) (w : World) (n : Nat) :
    (List.range n).foldl (poll_push_unit c hw) w = loopWorld (stepCell c hw) w n := by
  rw [← foldl_putCell]
  congr 1
  funext acc u
  exact push_eq_putCell c hw acc u

theorem cell_loopWorld (F : Nat → UnitCell → UnitCell × List String) (w : World) (n v : Nat) :
    cell (loopWorld F w n) v = if v < n then (F v (cell w v)).1 else cell w v := by
  by_cases h : v < n <;> simp [cell, loopWorld, h]

/-- Running the push step again on the cell it produced changes nothing and
sends nothing. -/
theorem stepCell_idem (c : Consts) (hw : Hardware) (u : Nat) (x : UnitCell) :
    stepCell c hw u (stepCell c hw u x).1 = ((stepCell c hw u x).1, []) := by
  by_cases h : drive_status_unit_active c hw u = 0
  · by_cases hv : x.valid = 0 <;> simp [stepCell, h, hv]
  · obtain ⟨ctx, hctx⟩ := unit_active_ctx h
    by_cases hd : x.valid = 0 ∨ x.prev ≠ status_read c ctx u x.motor x.step
    · simp only [stepCell, if_neg h, hctx, if_pos hd]
      simp [status_read_motor_read, motor_read_idem c ctx _ (motor_read_nonneg c ctx _)]
    · simp only [stepCell, if_neg h, hctx, if_neg hd]
      have hv : x.valid ≠ 0 := fun hv => hd (Or.inl hv)
      have he : x.prev = status_read c ctx u x.motor x.step := by
        by_contra he
        exact hd (Or.inr he)
      simp [status_read_motor_read, motor_read_idem c ctx _ (motor_read_nonneg c ctx _), hv, he]

/-- A loop whose step leaves every cell below `n` as it is and sends nothing
returns the world it started from. -/
theorem loopWorld_fix (F : Nat → UnitCell → UnitCell × List String) (w : World) (n : Nat)
    (h : ∀ v, v < n → F v (cell w v) = (cell w v, [])) : loopWorld F w n = w := by
  have hs : (List.range n).flatMap
      (fun v => (F v (cell w v)).2.map (fun l => (w.srv.client_socket, l))) = [] := by
    rw [List.flatMap_eq_nil_iff]
    intro v hv
    rw [h v (List.mem_range.mp hv)]
    rfl
  unfold loopWorld
  rw [hs]
  ext v
  all_goals first
    | rfl
    | (simp only [List.append_nil]; done)
    | (by_cases hv : v < n
       · simp only [if_pos hv]
         rw [h v hv]
         rfl
       · simp only [if_neg hv])

/-! ## Whole loops -/

theorem loopWorld_succ (F : Nat → UnitCell → UnitCell × List String) (w : World) (n : Nat) :
    putCell (loopWorld F w n) n (F n (cell (loopWorld F w n) n)) = loopWorld F w (n + 1) := by
  have hc : cell (loopWorld F w n) n = cell w n := by
    simp [cell, loopWorld]
  rw [hc]
  simp only [putCell, loopWorld, List.range_succ, List.flatMap_append, List.flatMap_singleton,
    List.append_assoc]
  rw [update_ite_lt n (fun v => (F v (cell w v)).1.motor),
    update_ite_lt n (fun v => (F v (cell w v)).1.step),
    update_ite_lt n (fun v => (F v (cell w v)).1.prev),
    update_ite_lt n (fun v => (F v (cell w v)).1.valid)]

theorem init_loop_eq (c : Consts) (hw : Hardware) (w : World) (a : Int) (n : Nat) :
    (List.range n).foldl (send_initial_unit c hw) (w, a) =
      (loopWorld (initCell c hw) w n,
        if (List.range n).filter (fun u => drive_status_unit_active c hw u ≠ 0) = [] then a
        else 1) := by
  induction n with
  | zero => simp [loopWorld]
  | succ n ih =>
    rw [List.range_succ, List.foldl_append, ih]
    simp only [List.foldl_cons, List.foldl_nil]
    rw [init_eq_putCell, loopWorld_succ]
    congr 1
    by_cases h : drive_status_unit_active c hw n = 0
    · simp [List.filter_append, h]
    · simp [List.filter_append, h]

theorem reset_prev_valid (c : Consts) (s : Server) :
    (drivestatus_server_reset_prev c s).prev_valid =
      fun v => if v < c.NUM_DISK_UNITS then 0 else s.prev_valid v := by
  unfold drivestatus_server_reset_prev
  simp only
  generalize c.NUM_DISK_UNITS = n
  induction n with
  | zero => simp
  | succ n ih =>
    rw [List.range_succ, List.foldl_append, ih]
    simp only [List.foldl_cons, List.foldl_nil]
    exact update_ite_lt n (fun _ => (0 : Int)) s.prev_valid

theorem flatMap_filter_singleton {α β : Type} (p : α → Prop) [DecidablePred p] (g : α → β)
    (f : α → List β) (l : List α) (hp : ∀ a, a ∈ l → p a → f a = [g a])
    (hn : ∀ a, a ∈ l → ¬ p a → f a = []) :
    l.flatMap f = (l.filter (fun a => p a)).map g := by
  induction l with
  | nil => rfl
  | cons a l ih =>
    have ih' := ih (fun b hb => hp b (List.mem_cons_of_mem a hb))
      (fun b hb => hn b (List.mem_cons_of_mem a hb))
    rw [List.flatMap_cons, ih']
    by_cases h : p a
    · rw [hp a (List.mem_cons_self a l) h]
      simp [List.filter_cons, h]
    · rw [hn a (List.mem_cons_self a l) h]
      simp [List.filter_cons, h]

theorem get_status_active (c : Consts) (hw : Hardware) (u : Nat) (st : drive_status_t)
    (cl : Int) (r : Registry) (ctx : diskunit_context_t) (hctx : hw u = some ctx)
    (h : drive_status_unit_active c hw u ≠ 0) :
    (drive_status_get c hw u st cl r).status =
      status_read c ctx u (r.drive_status_motor u) (r.drive_status_step u) := by
  rw [get_active c hw u st cl r ctx hctx h]

theorem poll_listen_no_accept (c : Consts) (hw : Hardware) (ev : PollEvents) (w : World)
    (h : ¬ accepts w ev) : drivestatus_server_poll_listen c hw ev w = w := by
  unfold drivestatus_server_poll_listen
  unfold accepts at h
  cases hl : w.srv.listen_socket with
  | none => rfl
  | some l =>
    cases hr : ev.listen_ready with
    | false => simp
    | true =>
      cases ha : ev.accepted with
      | none => simp
      | some cl => simp [hl, hr, ha] at h

/-- Without a new connection and without a hang-up, an enabled server with a
client runs the push loop and nothing else. -/
theorem poll_connected (c : Consts) (hw : Hardware) (ev : PollEvents) (w : World) (cl : Nat)
    (he : w.srv.server_enabled ≠ 0) (hc : w.srv.client_socket = some cl)
    (ha : ¬ accepts w ev) (hh : ¬ hangs_up ev) :
    monitor_drivestatus_poll c hw ev w = loopWorld (stepCell c hw) w c.NUM_DISK_UNITS := by
  unfold monitor_drivestatus_poll
  rw [if_neg he]
  simp only [poll_listen_no_accept c hw ev w ha, hc]
  unfold hangs_up at hh
  rw [if_neg hh, push_loop_eq]

theorem poll_idle (c : Consts) (hw : Hardware) (ev : PollEvents) (w : World)
    (h : w.srv.server_enabled = 0 ∨ w.srv.client_socket = none) (ha : ¬ accepts w ev) :
    monitor_drivestatus_poll c hw ev w = w := by
  unfold monitor_drivestatus_poll
  by_cases he : w.srv.server_enabled = 0
  · rw [if_pos he]
  · rw [if_neg he]
    have hc : w.srv.client_socket = none := by
      cases h with
      | inl h => exact absurd h he
      | inr h => exact h
    simp only [poll_listen_no_accept c hw ev w ha, hc]

/-- C3. Diff push is quiescent.  When two polls run back to back on the same
hardware, neither accepting a new client nor seeing a hang-up, the second poll
returns the world the first one left: it sends no line and changes neither the
delivered cache nor the registry, whatever the first poll sent.  (With no
client, or with the server disabled, both polls change nothing.) -/
theorem diff_push_quiescent (c : Consts) (hw : Hardware) (ev1 ev2 : PollEvents) (w : World)
    (ha1 : ¬ accepts w ev1) (hh1 : ¬ hangs_up ev1)
    (ha2 : ¬ accepts (monitor_drivestatus_poll c hw ev1 w) ev2) (hh2 : ¬ hangs_up ev2) :
    monitor_drivestatus_poll c hw ev2 (monitor_drivestatus_poll c hw ev1 w) =
      monitor_drivestatus_poll c hw ev1 w := by
  by_cases he : w.srv.server_enabled = 0
  · rw [poll_idle c hw ev1 w (Or.inl he) ha1] at ha2 ⊢
    exact poll_idle c hw ev2 w (Or.inl he) ha2
  · cases hc : w.srv.client_socket with
    | none =>
      rw [poll_idle c hw ev1 w (Or.inr hc) ha1] at ha2 ⊢
      exact poll_idle c hw ev2 w (Or.inr hc) ha2
    | some cl =>
      rw [poll_connected c hw ev1 w cl he hc ha1 hh1] at ha2 ⊢
      rw [poll_connected c hw ev2 (loopWorld (stepCell c hw) w c.NUM_DISK_UNITS) cl he hc ha2 hh2]
      apply loopWorld_fix
      intro v hv
      rw [cell_loopWorld, if_pos hv]
      exact stepCell_idem c hw v (cell w v)

theorem diff_push_quiescent_witness :
    (¬ accepts scenario_stepped ev_quiet ∧ ¬ hangs_up ev_quiet) ∧
      monitor_drivestatus_poll viceConsts scenario_hw ev_quiet
          (monitor_drivestatus_poll viceConsts scenario_hw ev_quiet scenario_stepped) =
        monitor_drivestatus_poll viceConsts scenario_hw ev_quiet scenario_stepped :=
  ⟨⟨by decide, by decide⟩,
    diff_push_quiescent viceConsts scenario_hw ev_quiet ev_quiet scenario_stepped
      (by decide) (by decide) (by decide) (by decide)⟩

theorem accept_prepare (c : Consts) (w : World) (cl : Nat) :
    (let w1 := drivestatus_server_close_client c w
     let w2 : World := { w1 with srv := { w1.srv with client_socket := some cl } }
     ({ w2 with srv := drivestatus_server_reset_prev c w2.srv } : World)) =
      accept_world c w cl := by
  simp only
  ext v
  all_goals first
    | rfl
    | (cases hcs : w.srv.client_socket <;>
        simp [drivestatus_server_close_client, drivestatus_server_reset_prev, accept_world, hcs]
       done)
    | skip
  simp only [reset_prev_valid, accept_world]
  cases hcs : w.srv.client_socket <;>
    simp [drivestatus_server_close_client, reset_prev_valid, hcs]
  all_goals
    intro hv
    rw [if_pos hv]

theorem stepCell_initCell (c : Consts) (hw : Hardware) (u : Nat) (x : UnitCell)
    (hx : x.valid = 0) :
    stepCell c hw u (initCell c hw u x).1 = ((initCell c hw u x).1, []) := by
  by_cases h : drive_status_unit_active c hw u = 0
  · simp [stepCell, initCell, h, hx]
  · obtain ⟨ctx, hctx⟩ := unit_active_ctx h
    simp [stepCell, initCell, h, hctx, status_read_motor_read,
      motor_read_idem c ctx _ (motor_read_nonneg c ctx _)]

/-- A poll that accepts client `cl`, when the client does not hang up in the
same call: the initial push from `accept_world`, the error line if no unit is
active, and a push loop that finds nothing to do. -/
theorem poll_accept (c : Consts) (hw : Hardware) (ev : PollEvents) (w : World) (l cl : Nat)
    (he : w.srv.server_enabled ≠ 0) (hl : w.srv.listen_socket = some l)
    (hr : ev.listen_ready = true) (ha : ev.accepted = some cl) (hh : ¬ hangs_up ev) :
    monitor_drivestatus_poll c hw ev w =
      (let wi := loopWorld (initCell c hw) (accept_world c w cl) c.NUM_DISK_UNITS
       if active_units c hw = [] then drivestatus_server_send_error wi else wi) := by
  have hlisten : drivestatus_server_poll_listen c hw ev w =
      drivestatus_server_send_initial c hw (accept_world c w cl) := by
    unfold drivestatus_server_poll_listen
    simp only [hl, hr, ha]
    have := accept_prepare c w cl
    simp only at this
    simp [this]
  have hinit : drivestatus_server_send_initial c hw (accept_world c w cl) =
      (let wi := loopWorld (initCell c hw) (accept_world c w cl) c.NUM_DISK_UNITS
       if active_units c hw = [] then drivestatus_server_send_error wi else wi) := by
    unfold drivestatus_server_send_initial
    simp only [init_loop_eq, active_units]
    by_cases hact : (List.range c.NUM_DISK_UNITS).filter
        (fun u => drive_status_unit_active c hw u ≠ 0) = []
    · simp [hact]
    · simp [hact]
  unfold monitor_drivestatus_poll
  rw [if_neg he, hlisten, hinit]
  unfold hangs_up at hh
  simp only
  generalize hW : (if active_units c hw = [] then
      drivestatus_server_send_error
        (loopWorld (initCell c hw) (accept_world c w cl) c.NUM_DISK_UNITS)
    else loopWorld (initCell c hw) (accept_world c w cl) c.NUM_DISK_UNITS) = W
  have hcW : W.srv.client_socket = some cl := by
    rw [← hW]
    split <;> rfl
  have hcell : ∀ v, cell W v =
      cell (loopWorld (initCell c hw) (accept_world c w cl) c.NUM_DISK_UNITS) v := by
    intro v
    rw [← hW]
    split <;> rfl
  simp only [hcW]
  rw [if_neg hh, push_loop_eq]
  apply loopWorld_fix
  intro v hv
  rw [hcell v, cell_loopWorld, if_pos hv]
  apply stepCell_initCell
  simp [cell, accept_world, hv]

theorem init_sent (c : Consts) (hw : Hardware) (w : World) (cl : Nat) :
    (loopWorld (initCell c hw) (accept_world c w cl) c.NUM_DISK_UNITS).sent =
      w.sent ++ (active_units c hw).map
        (fun u => (some cl, format_line (drive_status_get c hw u uninit_status 1 w.reg).status)) := by
  unfold active_units
  rw [← flatMap_filter_singleton (fun u => drive_status_unit_active c hw u ≠ 0)
    (fun u => (some cl, format_line (drive_status_get c hw u uninit_status 1 w.reg).status))
    (fun v => ((initCell c hw v (cell (accept_world c w cl) v)).2.map
      (fun l => ((accept_world c w cl).srv.client_socket, l))))]
  · rfl
  · intro u _ h
    obtain ⟨ctx, hctx⟩ := unit_active_ctx h
    rw [get_status_active c hw u _ _ _ ctx hctx h]
    simp [initCell, h, hctx, cell, accept_world]
  · intro u _ h
    have h0 : drive_status_unit_active c hw u = 0 := not_not.mp h
    simp [initCell, h0]

theorem init_cell_active (c : Consts) (hw : Hardware) (w : World) (cl u : Nat)
    (h : drive_status_unit_active c hw u ≠ 0) :
    cell (loopWorld (initCell c hw) (accept_world c w cl) c.NUM_DISK_UNITS) u =
      ⟨(drive_status_get c hw u uninit_status 1 w.reg).status.motor_on, 0, 1,
        { (drive_status_get c hw u uninit_status 1 w.reg).status with step_event := 0 }⟩ := by
  obtain ⟨ctx, hctx⟩ := unit_active_ctx h
  rw [cell_loopWorld, if_pos (unit_active_lt h), get_status_active c hw u _ _ _ ctx hctx h]
  simp [initCell, h, hctx, cell, accept_world, status_read_clear]
  rfl

theorem init_cell_inactive (c : Consts) (hw : Hardware) (w : World) (cl u : Nat)
    (h : drive_status_unit_active c hw u = 0) :
    cell (loopWorld (initCell c hw) (accept_world c w cl) c.NUM_DISK_UNITS) u =
      cell (accept_world c w cl) u := by
  rw [cell_loopWorld]
  split
  · simp [initCell, h]
  · rfl

/-- C2. New-client full push.  When a poll accepts a client `cl` that does not
hang up in the same call, the lines sent during the call are exactly one status
line per active unit, in increasing unit order, each rendering the record read
for that unit, or the single error line if no unit is active, all addressed to
`cl`; afterwards the step flag of every active unit is 0, a cache entry below
`NUM_DISK_UNITS` is valid exactly when its unit is active, and the entry of an
active unit holds the record read with `step_event` set to 0. -/
theorem new_client_full_push (c : Consts) (hw : Hardware) (ev : PollEvents) (w : World)
    (l cl : Nat) (he : w.srv.server_enabled ≠ 0) (hl : w.srv.listen_socket = some l)
    (hr : ev.listen_ready = true) (ha : ev.accepted = some cl) (hh : ¬ hangs_up ev) :
    (monitor_drivestatus_poll c hw ev w).sent =
        w.sent ++
          (if active_units c hw = [] then [(some cl, error_line)]
           else (active_units c hw).map (fun u =>
             (some cl, format_line (drive_status_get c hw u uninit_status 1 w.reg).status))) ∧
      (∀ u, drive_status_unit_active c hw u ≠ 0 →
        (monitor_drivestatus_poll c hw ev w).reg.drive_status_step u = 0) ∧
      (∀ u, u < c.NUM_DISK_UNITS →
        ((monitor_drivestatus_poll c hw ev w).srv.prev_valid u ≠ 0 ↔
          drive_status_unit_active c hw u ≠ 0)) ∧
      (∀ u, drive_status_unit_active c hw u ≠ 0 →
        (monitor_drivestatus_poll c hw ev w).srv.prev_status u =
          { (drive_status_get c hw u uninit_status 1 w.reg).status with step_event := 0 }) := by
  rw [poll_accept c hw ev w l cl he hl hr ha hh]
  simp only
  have hcell : ∀ v, cell (if active_units c hw = [] then
      drivestatus_server_send_error
        (loopWorld (initCell c hw) (accept_world c w cl) c.NUM_DISK_UNITS)
    else loopWorld (initCell c hw) (accept_world c w cl) c.NUM_DISK_UNITS) v =
      cell (loopWorld (initCell c hw) (accept_world c w cl) c.NUM_DISK_UNITS) v := by
    intro v
    split <;> rfl
  refine ⟨?_, ?_, ?_, ?_⟩
  · by_cases hact : active_units c hw = []
    · rw [if_pos hact, if_pos hact]
      simp only [drivestatus_server_send_error]
      rw [init_sent, hact]
      simp
      rfl
    · rw [if_neg hact, if_neg hact, init_sent]
  · intro u hu
    have := congrArg UnitCell.step ((hcell u).trans (init_cell_active c hw w cl u hu))
    exact this
  · intro u hu
    by_cases hact : drive_status_unit_active c hw u = 0
    · have hv : (cell (accept_world c w cl) u).valid = 0 := by
        simp [cell, accept_world, hu]
      have := congrArg UnitCell.valid ((hcell u).trans (init_cell_inactive c hw w cl u hact))
      rw [hv] at this
      constructor
      · intro hne
        exact absurd this hne
      · intro hne
        exact absurd hact hne
    · have := congrArg UnitCell.valid ((hcell u).trans (init_cell_active c hw w cl u hact))
      constructor
      · intro _
        exact hact
      · intro _ hz
        have h10 : (1 : Int) = 0 := this.symm.trans hz
        exact absurd h10 (by decide)
  · intro u hu
    have := congrArg UnitCell.prev ((hcell u).trans (init_cell_active c hw w cl u hu))
    exact this

theorem new_client_full_push_witness :
    (scenario_world.srv.server_enabled ≠ 0 ∧ scenario_world.srv.listen_socket = some 3 ∧
      ev_accept.listen_ready = true ∧ ev_accept.accepted = some 7 ∧ ¬ hangs_up ev_accept) ∧
    (monitor_drivestatus_poll viceConsts scenario_hw ev_accept scenario_world).sent =
        scenario_world.sent ++
          (if active_units viceConsts scenario_hw = [] then [(some 7, error_line)]
           else (active_units viceConsts scenario_hw).map (fun u =>
             (some 7, format_line
               (drive_status_get viceConsts scenario_hw u uninit_status 1
                 scenario_world.reg).status))) :=
  ⟨⟨by decide, rfl, rfl, rfl, by decide⟩,
    (new_client_full_push viceConsts scenario_hw ev_accept scenario_world 3 7
      (by decide) rfl rfl rfl (by decide)).1⟩


/-! ## The end-to-end trace -/

theorem active_units_only_zero (c : Consts) (hw : Hardware)
    (hact : drive_status_unit_active c hw 0 ≠ 0)
    (honly : ∀ u, u ≠ 0 → drive_status_unit_active c hw u = 0) :
    active_units c hw = [0] := by
  have hN := unit_active_lt hact
  obtain ⟨n, hn⟩ : ∃ n, c.NUM_DISK_UNITS = n + 1 := ⟨c.NUM_DISK_UNITS - 1, by omega⟩
  unfold active_units
  rw [hn, List.range_succ_eq_map, List.filter_cons]
  simp only [hact, ne_eq, not_false_eq_true, decide_True, if_true]
  congr 1
  rw [List.filter_eq_nil_iff]
  intro a ha
  obtain ⟨b, _, rfl⟩ := List.mem_map.mp ha
  simp [honly (b + 1) (Nat.succ_ne_zero b)]

theorem format_line_step (s : Int) (hs : s = 0 ∨ s = 1) :
    format_line ⟨8, 1, 1, 18, 1, s⟩ = "8 1 1 18 1 " ++ toString s ++ "\n" := by
  rcases hs with rfl | rfl <;> decide

theorem scenario_status (c : Consts) (ctx : diskunit_context_t) (s : Int)
    (hmin : c.DRIVE_UNIT_MIN = 8) (hht : ctx.drive0.current_half_track = 35)
    (hrw : ctx.drive0.read_write_mode ≠ 0) (hled : ctx.drive0.led_status &&& 1 ≠ 0) :
    status_read c ctx 0 1 s = ⟨8, 1, 1, 18, 1, s⟩ := by
  have hm : motor_read c ctx 1 = 1 := motor_read_idem c ctx 1 (by decide)
  have ht : (wrap32 (35 + 1)).tdiv 2 = 18 := by decide
  unfold status_read
  rw [hm, hmin, hht, if_pos hled, if_pos (by decide), ht, if_neg (by decide), if_pos hrw]
  rfl

theorem set_step_event_in_range (c : Consts) (u : Nat) (r : Registry)
    (h : u < c.NUM_DISK_UNITS) :
    drive_status_set_step_event c u r =
      { r with drive_status_step := Function.update r.drive_status_step u 1 } := by
  unfold drive_status_set_step_event
  rw [if_neg (Nat.not_le_of_lt h)]

/-- C1 (amended). End-to-end trace.  Unit 0 is the only active unit, its head is
on half-track 35, the read/write flag is set, the LED bit is on, the motor cache
is On and the step flag is set.  A poll that accepts a client sends exactly
`8 1 1 18 1 1` (the pending step is reported in the first line) and leaves the
step flag 0 in the registry and in the valid cache entry; the next poll sends
nothing; after `drive_status_set_step_event 0` the next poll sends exactly
`8 1 1 18 1 1`; the poll after that sends nothing. -/
theorem end_to_end_trace (c : Consts) (hw : Hardware) (w : World) (ctx : diskunit_context_t)
    (l cl : Nat) (ev1 ev2 ev3 ev4 : PollEvents)
    (hmin : c.DRIVE_UNIT_MIN = 8) (hctx : hw 0 = some ctx)
    (hact : drive_status_unit_active c hw 0 ≠ 0)
    (honly : ∀ u, u ≠ 0 → drive_status_unit_active c hw u = 0)
    (hht : ctx.drive0.current_half_track = 35) (hrw : ctx.drive0.read_write_mode ≠ 0)
    (hled : ctx.drive0.led_status &&& 1 ≠ 0)
    (hmotor : w.reg.drive_status_motor 0 = 1) (hstep : w.reg.drive_status_step 0 = 1)
    (he : w.srv.server_enabled ≠ 0) (hl : w.srv.listen_socket = some l)
    (hr1 : ev1.listen_ready = true) (ha1 : ev1.accepted = some cl) (hh1 : ¬ hangs_up ev1)
    (ha2 : ev2.listen_ready = false ∨ ev2.accepted = none) (hh2 : ¬ hangs_up ev2)
    (ha3 : ev3.listen_ready = false ∨ ev3.accepted = none) (hh3 : ¬ hangs_up ev3)
    (ha4 : ev4.listen_ready = false ∨ ev4.accepted = none) (hh4 : ¬ hangs_up ev4)
    (w1 w2 w3 w4 : World)
    (h1 : w1 = monitor_drivestatus_poll c hw ev1 w)
    (h2 : w2 = monitor_drivestatus_poll c hw ev2 w1)
    (h3 : w3 = monitor_drivestatus_poll c hw ev3
      { w2 with reg := drive_status_set_step_event c 0 w2.reg })
    (h4 : w4 = monitor_drivestatus_poll c hw ev4 w3) :
    w1.sent = w.sent ++ [(some cl, "8 1 1 18 1 1\n")] ∧
      w1.reg.drive_status_step 0 = 0 ∧
      w1.srv.prev_valid 0 ≠ 0 ∧
      (w1.srv.prev_status 0).step_event = 0 ∧
      w2.sent = w1.sent ∧
      w3.sent = w2.sent ++ [(some cl, "8 1 1 18 1 1\n")] ∧
      w4.sent = w3.sent := by
  have hN := unit_active_lt hact
  have hunits := active_units_only_zero c hw hact honly
  have hne : active_units c hw ≠ [] := by rw [hunits]; exact List.cons_ne_nil _ _
  have hno : ∀ (ev : PollEvents) (x : World),
      (ev.listen_ready = false ∨ ev.accepted = none) → ¬ accepts x ev := by
    intro ev x h hacc
    rcases h with h | h
    · rw [hacc.2.1] at h
      exact absurd h (by decide)
    · exact hacc.2.2 h
  have hline : ∀ s : Int, s = 0 ∨ s = 1 →
      format_line (status_read c ctx 0 1 s) = "8 1 1 18 1 " ++ toString s ++ "\n" := by
    intro s hs
    rw [scenario_status c ctx s hmin hht hrw hled, format_line_step s hs]
  -- the first poll
  have hw1 : w1 = loopWorld (initCell c hw) (accept_world c w cl) c.NUM_DISK_UNITS := by
    rw [h1, poll_accept c hw ev1 w l cl he hl hr1 ha1 hh1]
    simp only [if_neg hne]
  have hget : (drive_status_get c hw 0 uninit_status 1 w.reg).status = status_read c ctx 0 1 1 := by
    rw [get_status_active c hw 0 _ _ _ ctx hctx hact, hmotor, hstep]
  have hs1 : w1.sent = w.sent ++ [(some cl, "8 1 1 18 1 1\n")] := by
    rw [hw1, init_sent, hunits]
    simp only [List.map_cons, List.map_nil]
    rw [hget, hline 1 (Or.inr rfl)]
    rfl
  have hc1 : w1.srv.client_socket = some cl := by rw [hw1]; rfl
  have he1 : w1.srv.server_enabled ≠ 0 := by rw [hw1]; exact he
  have hcell0 : cell w1 0 = ⟨1, 0, 1, status_read c ctx 0 1 0⟩ := by
    rw [hw1, init_cell_active c hw w cl 0 hact, hget]
    simp only [status_read_clear]
    rw [scenario_status c ctx 1 hmin hht hrw hled]
  have hcelln : ∀ v, v < c.NUM_DISK_UNITS → v ≠ 0 → (cell w1 v).valid = 0 := by
    intro v hv hv0
    rw [hw1, init_cell_inactive c hw w cl v (honly v hv0)]
    simp [cell, accept_world, hv]
  -- the second poll
  have hw2 : w2 = w1 := by
    rw [h2, poll_connected c hw ev2 w1 cl he1 hc1 (hno ev2 w1 ha2) hh2]
    apply loopWorld_fix
    intro v hv
    rw [hw1, cell_loopWorld, if_pos hv]
    apply stepCell_initCell
    simp [cell, accept_world, hv]
  -- the third poll, after the step event
  have hw3 : w3 = loopWorld (stepCell c hw)
      { w1 with reg := drive_status_set_step_event c 0 w1.reg } c.NUM_DISK_UNITS := by
    rw [h3, hw2]
    exact poll_connected c hw ev3 _ cl he1 hc1 (hno ev3 _ ha3) hh3
  have hs3 : w3.sent = w1.sent ++ [(some cl, "8 1 1 18 1 1\n")] := by
    rw [hw3]
    simp only [loopWorld]
    rw [flatMap_filter_singleton (fun u => drive_status_unit_active c hw u ≠ 0)
      (fun _ => (some cl, "8 1 1 18 1 1\n"))]
    · have := hunits
      unfold active_units at this
      rw [this]
      rfl
    · intro u _ hu
      have hu0 : u = 0 := by
        by_contra hne0
        exact hu (honly u hne0)
      subst hu0
      have hcx : cell ({ w1 with reg := drive_status_set_step_event c 0 w1.reg } : World) 0 =
          ⟨1, 1, 1, status_read c ctx 0 1 0⟩ := by
        have := hcell0
        simp only [cell, UnitCell.mk.injEq] at this
        simp only [cell, set_step_event_in_range c 0 _ hN, Function.update_same, this.1, this.2.2.1,
          this.2.2.2]
      rw [hcx]
      have hdiff : (status_read c ctx 0 1 0) ≠ status_read c ctx 0 1 1 := by
        intro heq
        have := congrArg drive_status_t.step_event heq
        simp [status_read_step_event] at this
      simp only [stepCell, if_neg hact, hctx, hc1]
      rw [if_pos (Or.inr hdiff)]
      simp only [List.map_cons, List.map_nil]
      rw [hline 1 (Or.inr rfl)]
      rfl
    · intro u hur hu
      have h0 : drive_status_unit_active c hw u = 0 := not_not.mp hu
      have hu0 : u ≠ 0 := by
        rintro rfl
        exact hact h0
      have hv := hcelln u (List.mem_range.mp hur) hu0
      have hv' : (cell ({ w1 with reg := drive_status_set_step_event c 0 w1.reg } : World) u).valid
          = 0 := hv
      simp [stepCell, h0, hv']
  -- the fourth poll
  have hw4 : w4 = w3 := by
    rw [h4, hw3]
    rw [poll_connected c hw ev4 (loopWorld (stepCell c hw)
      { w1 with reg := drive_status_set_step_event c 0 w1.reg } c.NUM_DISK_UNITS) cl he1 hc1
      (hno ev4 _ ha4) hh4]
    apply loopWorld_fix
    intro v hv
    rw [cell_loopWorld, if_pos hv]
    exact stepCell_idem c hw v _
  have hc0 := hcell0
  simp only [cell, UnitCell.mk.injEq] at hc0
  refine ⟨hs1, hc0.2.1, ?_, ?_, by rw [hw2], by rw [hs3, hw2], by rw [hw4]⟩
  · rw [hc0.2.2.1]
    decide
  · rw [hc0.2.2.2]
    rfl

theorem scenario_only_zero (u : Nat) (hu : u ≠ 0) :
    drive_status_unit_active viceConsts scenario_hw u = 0 := by
  simp [drive_status_unit_active, scenario_hw, hu]

theorem end_to_end_trace_witness :
    (viceConsts.DRIVE_UNIT_MIN = 8 ∧
      drive_status_unit_active viceConsts scenario_hw 0 ≠ 0 ∧
      (∀ u, u ≠ 0 → drive_status_unit_active viceConsts scenario_hw u = 0) ∧
      scenario_world.reg.drive_status_motor 0 = 1 ∧
      scenario_world.reg.drive_status_step 0 = 1 ∧
      scenario_world.srv.server_enabled ≠ 0 ∧
      scenario_world.srv.listen_socket = some 3 ∧
      ¬ hangs_up ev_accept ∧ ¬ hangs_up ev_quiet) ∧
    ((monitor_drivestatus_poll viceConsts scenario_hw ev_accept scenario_world).sent =
        scenario_world.sent ++ [(some 7, "8 1 1 18 1 1\n")] ∧
      (monitor_drivestatus_poll viceConsts scenario_hw ev_accept
        scenario_world).reg.drive_status_step 0 = 0 ∧
      (monitor_drivestatus_poll viceConsts scenario_hw ev_accept
        scenario_world).srv.prev_valid 0 ≠ 0 ∧
      ((monitor_drivestatus_poll viceConsts scenario_hw ev_accept
        scenario_world).srv.prev_status 0).step_event = 0 ∧
      (monitor_drivestatus_poll viceConsts scenario_hw ev_quiet
        (monitor_drivestatus_poll viceConsts scenario_hw ev_accept scenario_world)).sent =
        (monitor_drivestatus_poll viceConsts scenario_hw ev_accept scenario_world).sent) :=
  ⟨⟨rfl, by decide, scenario_only_zero, rfl, rfl, by decide, rfl, by decide, by decide⟩,
    have h := end_to_end_trace viceConsts scenario_hw scenario_world
      { enable := 1, type := 1541,
        drive0 := { byte_ready_active := 4, led_status := 1, current_half_track := 35,
                    read_write_mode := 1 } }
      3 7 ev_accept ev_quiet ev_quiet ev_quiet rfl rfl (by decide) scenario_only_zero rfl
      (by decide) (by decide) rfl rfl (by decide) rfl rfl rfl (by decide)
      (Or.inl rfl) (by decide) (Or.inl rfl) (by decide) (Or.inl rfl) (by decide)
      _ _ _ _ rfl rfl rfl rfl
    ⟨h.1, h.2.1, h.2.2.1, h.2.2.2.1, h.2.2.2.2.1⟩⟩

/-- C1, as stated, fails: in the scenario the line sent to the new client is
`8 1 1 18 1 1`, with the pending step reported, not `8 1 1 18 1 0`. -/
theorem end_to_end_first_line_counterexample :
    (monitor_drivestatus_poll viceConsts scenario_hw ev_accept scenario_world).sent =
        [(some 7, "8 1 1 18 1 1\n")] ∧
      (monitor_drivestatus_poll viceConsts scenario_hw ev_accept scenario_world).sent ≠
        [(some 7, "8 1 1 18 1 0\n")] := by
  decide

/-! ## The diff rule, unit by unit -/

theorem fields_differ_iff (a b : drive_status_t) : fields_differ a b ↔ a ≠ b := by
  unfold fields_differ
  cases a
  cases b
  simp only [ne_eq, drive_status_t.mk.injEq]
  tauto

theorem pushed_eq (c : Consts) (hw : Hardware) (w : World) (u : Nat) :
    pushed c hw w u =
      (stepCell c hw u (cell w u)).2.map (fun l => (w.srv.client_socket, l)) := by
  unfold pushed
  rw [push_eq_putCell]
  simp [putCell]

theorem poll_connected_sent (c : Consts) (hw : Hardware) (ev : PollEvents) (w : World)
    (cl : Nat) (he : w.srv.server_enabled ≠ 0) (hc : w.srv.client_socket = some cl)
    (ha : ¬ accepts w ev) (hh : ¬ hangs_up ev) :
    (monitor_drivestatus_poll c hw ev w).sent =
      w.sent ++ (List.range c.NUM_DISK_UNITS).flatMap (pushed c hw w) := by
  rw [poll_connected c hw ev w cl he hc ha hh]
  simp only [loopWorld]
  congr 2
  funext v
  rw [pushed_eq]

theorem poll_connected_cell (c : Consts) (hw : Hardware) (ev : PollEvents) (w : World)
    (cl : Nat) (he : w.srv.server_enabled ≠ 0) (hc : w.srv.client_socket = some cl)
    (ha : ¬ accepts w ev) (hh : ¬ hangs_up ev) (u : Nat) (hu : u < c.NUM_DISK_UNITS) :
    cell (monitor_drivestatus_poll c hw ev w) u = (stepCell c hw u (cell w u)).1 := by
  rw [poll_connected c hw ev w cl he hc ha hh, cell_loopWorld, if_pos hu]

/-- C4 (amended). Diff rule for an active unit.  In a poll cycle with a client
and neither a new connection nor a hang-up, the lines sent are those of the
units in order; for a unit whose non-clearing read succeeds with record `g`:
if its cache entry is invalid or differs from `g` in one of the six fields,
exactly the line of `g` is sent for it, the entry becomes valid and holds `g`
with `step_event = 0`, and the step flag of the unit is 0 afterwards; otherwise
nothing is sent for it, the entry and the step flag are unchanged, and the motor
cache is unchanged if it was known (an Unknown motor cache is filled in by the
read). -/
theorem diff_rule_active (c : Consts) (hw : Hardware) (ev : PollEvents) (w : World)
    (cl u : Nat) (he : w.srv.server_enabled ≠ 0) (hc : w.srv.client_socket = some cl)
    (ha : ¬ accepts w ev) (hh : ¬ hangs_up ev)
    (hok : (drive_status_get c hw u uninit_status 0 w.reg).rc = 0) :
    (monitor_drivestatus_poll c hw ev w).sent =
        w.sent ++ (List.range c.NUM_DISK_UNITS).flatMap (pushed c hw w) ∧
      ((w.srv.prev_valid u = 0 ∨
          fields_differ (w.srv.prev_status u)
            (drive_status_get c hw u uninit_status 0 w.reg).status) →
        pushed c hw w u =
            [(some cl, format_line (drive_status_get c hw u uninit_status 0 w.reg).status)] ∧
          (monitor_drivestatus_poll c hw ev w).srv.prev_valid u = 1 ∧
          (monitor_drivestatus_poll c hw ev w).srv.prev_status u =
            { (drive_status_get c hw u uninit_status 0 w.reg).status with step_event := 0 } ∧
          (monitor_drivestatus_poll c hw ev w).reg.drive_status_step u = 0) ∧
      (¬ (w.srv.prev_valid u = 0 ∨
          fields_differ (w.srv.prev_status u)
            (drive_status_get c hw u uninit_status 0 w.reg).status) →
        pushed c hw w u = [] ∧
          (monitor_drivestatus_poll c hw ev w).srv.prev_valid u = w.srv.prev_valid u ∧
          (monitor_drivestatus_poll c hw ev w).srv.prev_status u = w.srv.prev_status u ∧
          (monitor_drivestatus_poll c hw ev w).reg.drive_status_step u =
            w.reg.drive_status_step u ∧
          (monitor_drivestatus_poll c hw ev w).reg.drive_status_motor u =
            (drive_status_get c hw u uninit_status 0 w.reg).status.motor_on ∧
          (0 ≤ w.reg.drive_status_motor u →
            (monitor_drivestatus_poll c hw ev w).reg.drive_status_motor u =
              w.reg.drive_status_motor u)) := by
  have hact : drive_status_unit_active c hw u ≠ 0 := by
    intro h0
    rw [get_rc, if_pos h0] at hok
    exact absurd hok (by decide)
  have hu := unit_active_lt hact
  obtain ⟨ctx, hctx⟩ := unit_active_ctx hact
  have hcell := poll_connected_cell c hw ev w cl he hc ha hh u hu
  rw [get_status_active c hw u _ _ _ ctx hctx hact, fields_differ_iff]
  refine ⟨poll_connected_sent c hw ev w cl he hc ha hh, ?_, ?_⟩
  · intro hd
    have hstep : stepCell c hw u (cell w u) =
        (⟨motor_read c ctx (w.reg.drive_status_motor u), 0, 1,
            status_read c ctx u (w.reg.drive_status_motor u) 0⟩,
          [format_line (status_read c ctx u (w.reg.drive_status_motor u)
            (w.reg.drive_status_step u))]) := by
      simp only [stepCell, if_neg hact, hctx, cell]
      rw [if_pos hd]
    rw [hstep] at hcell
    simp only [cell, UnitCell.mk.injEq] at hcell
    refine ⟨?_, hcell.2.2.1, ?_, hcell.2.1⟩
    · rw [pushed_eq, hstep, hc]
      rfl
    · rw [hcell.2.2.2]
      rfl
  · intro hd
    have hstep : stepCell c hw u (cell w u) =
        ({ cell w u with motor := motor_read c ctx (w.reg.drive_status_motor u) }, []) := by
      simp only [stepCell, if_neg hact, hctx, cell]
      rw [if_neg hd]
    rw [hstep] at hcell
    simp only [cell, UnitCell.mk.injEq] at hcell
    refine ⟨?_, hcell.2.2.1, hcell.2.2.2, hcell.2.1, ?_, ?_⟩
    · rw [pushed_eq, hstep]
      rfl
    · rw [hcell.1]
      rfl
    · intro hm
      rw [hcell.1, motor_read_idem c ctx _ hm]

theorem diff_rule_active_witness :
    (scenario_stepped.srv.server_enabled ≠ 0 ∧ scenario_stepped.srv.client_socket = some 7 ∧
      ¬ accepts scenario_stepped ev_quiet ∧ ¬ hangs_up ev_quiet ∧
      (drive_status_get viceConsts scenario_hw 0 uninit_status 0 scenario_stepped.reg).rc = 0 ∧
      (scenario_stepped.srv.prev_valid 0 = 0 ∨
        fields_differ (scenario_stepped.srv.prev_status 0)
          (drive_status_get viceConsts scenario_hw 0 uninit_status 0
            scenario_stepped.reg).status)) ∧
    (pushed viceConsts scenario_hw scenario_stepped 0 =
        [(some 7, format_line
          (drive_status_get viceConsts scenario_hw 0 uninit_status 0
            scenario_stepped.reg).status)] ∧
      (monitor_drivestatus_poll viceConsts scenario_hw ev_quiet scenario_stepped).srv.prev_valid 0
        = 1 ∧
      (monitor_drivestatus_poll viceConsts scenario_hw ev_quiet scenario_stepped).srv.prev_status 0
        = { (drive_status_get viceConsts scenario_hw 0 uninit_status 0
              scenario_stepped.reg).status with step_event := 0 } ∧
      (monitor_drivestatus_poll viceConsts scenario_hw ev_quiet
        scenario_stepped).reg.drive_status_step 0 = 0) :=
  ⟨⟨by decide, by decide, by decide, by decide, by decide, by decide⟩,
    (diff_rule_active viceConsts scenario_hw ev_quiet scenario_stepped 7 0
      (by decide) (by decide) (by decide) (by decide) (by decide)).2.1 (by decide)⟩

/-- C4, as stated, fails: after `drive_status_reset_unit 0` in the connected
scenario the read of unit 0 succeeds and gives the record already delivered, so
the poll sends nothing, yet the registry is not left unchanged: the motor cache
of unit 0 goes from Unknown (-1) to 1. -/
theorem diff_rule_registry_counterexample :
    (drive_status_get viceConsts scenario_hw 0 uninit_status 0 scenario_after_reset.reg).rc = 0 ∧
      scenario_after_reset.srv.prev_valid 0 ≠ 0 ∧
      ¬ fields_differ (scenario_after_reset.srv.prev_status 0)
        (drive_status_get viceConsts scenario_hw 0 uninit_status 0
          scenario_after_reset.reg).status ∧
      (monitor_drivestatus_poll viceConsts scenario_hw ev_quiet scenario_after_reset).sent =
        scenario_after_reset.sent ∧
      scenario_after_reset.reg.drive_status_motor 0 = -1 ∧
      (monitor_drivestatus_poll viceConsts scenario_hw ev_quiet
        scenario_after_reset).reg.drive_status_motor 0 = 1 ∧
      (monitor_drivestatus_poll viceConsts scenario_hw ev_quiet scenario_after_reset).reg ≠
        scenario_after_reset.reg := by
  refine ⟨by decide, by decide, by decide, by decide, by decide, by decide, ?_⟩
  intro h
  have h0 := congrArg (fun r => r.drive_status_motor 0) h
  revert h0
  decide

theorem push_frame_prev (c : Consts) (hw : Hardware) (x : World) (u v : Nat) (h : v ≠ u) :
    (poll_push_unit c hw x u).srv.prev_valid v = x.srv.prev_valid v ∧
      (poll_push_unit c hw x u).srv.prev_status v = x.srv.prev_status v := by
  rw [push_eq_putCell]
  simp [putCell, Function.update_noteq h]

/-- C5. Diff rule for an inactive unit.  In a poll cycle with a client and
neither a new connection nor a hang-up, the lines sent are those of the units in
order; for a unit below `NUM_DISK_UNITS` whose read fails: if its cache entry
was valid, exactly the error line is sent for it and the entry is invalidated;
if the entry was invalid, nothing is sent for it and its entries stay as they
were.  The step of unit `u` never touches the cache entries of another unit.
And in a following cycle in which the unit is still inactive nothing is sent
for it and its entry stays invalid, so the error line appears at most once. -/
theorem diff_rule_inactive (c : Consts) (hw : Hardware) (ev : PollEvents) (w : World)
    (cl u : Nat) (he : w.srv.server_enabled ≠ 0) (hc : w.srv.client_socket = some cl)
    (ha : ¬ accepts w ev) (hh : ¬ hangs_up ev) (hu : u < c.NUM_DISK_UNITS)
    (hfail : (drive_status_get c hw u uninit_status 0 w.reg).rc ≠ 0) :
    (monitor_drivestatus_poll c hw ev w).sent =
        w.sent ++ (List.range c.NUM_DISK_UNITS).flatMap (pushed c hw w) ∧
      (w.srv.prev_valid u ≠ 0 →
        pushed c hw w u = [(some cl, error_line)] ∧
          (monitor_drivestatus_poll c hw ev w).srv.prev_valid u = 0) ∧
      (w.srv.prev_valid u = 0 →
        pushed c hw w u = [] ∧
          (monitor_drivestatus_poll c hw ev w).srv.prev_valid u = w.srv.prev_valid u ∧
          (monitor_drivestatus_poll c hw ev w).srv.prev_status u = w.srv.prev_status u ∧
          (monitor_drivestatus_poll c hw ev w).reg.drive_status_motor u =
            w.reg.drive_status_motor u ∧
          (monitor_drivestatus_poll c hw ev w).reg.drive_status_step u =
            w.reg.drive_status_step u) ∧
      (∀ (x : World) (v : Nat), v ≠ u →
        (poll_push_unit c hw x u).srv.prev_valid v = x.srv.prev_valid v ∧
          (poll_push_unit c hw x u).srv.prev_status v = x.srv.prev_status v) ∧
      (∀ (hw' : Hardware) (ev' : PollEvents),
        (drive_status_get c hw' u uninit_status 0
          (monitor_drivestatus_poll c hw ev w).reg).rc ≠ 0 →
        ¬ accepts (monitor_drivestatus_poll c hw ev w) ev' → ¬ hangs_up ev' →
        pushed c hw' (monitor_drivestatus_poll c hw ev w) u = [] ∧
          (monitor_drivestatus_poll c hw' ev' (monitor_drivestatus_poll c hw ev w)).srv.prev_valid u
            = 0) := by
  have hact : drive_status_unit_active c hw u = 0 := (get_rc_ne_zero_iff c hw u _ _ _).mp hfail
  have hcell := poll_connected_cell c hw ev w cl he hc ha hh u hu
  have hinv : (monitor_drivestatus_poll c hw ev w).srv.prev_valid u = 0 := by
    have := congrArg UnitCell.valid hcell
    by_cases hv : w.srv.prev_valid u = 0
    · have hs : stepCell c hw u (cell w u) = (cell w u, []) := by
        simp [stepCell, hact, cell, hv]
      rw [hs] at this
      exact this.trans hv
    · have hs : stepCell c hw u (cell w u) = ({ cell w u with valid := 0 }, [error_line]) := by
        simp [stepCell, hact, cell, hv]
      rw [hs] at this
      exact this
  refine ⟨poll_connected_sent c hw ev w cl he hc ha hh, ?_, ?_, ?_, ?_⟩
  · intro hv
    refine ⟨?_, hinv⟩
    rw [pushed_eq, hc]
    simp [stepCell, hact, cell, hv]
  · intro hv
    have hstep : stepCell c hw u (cell w u) = (cell w u, []) := by
      simp [stepCell, hact, cell, hv]
    rw [hstep] at hcell
    simp only [cell, UnitCell.mk.injEq] at hcell
    refine ⟨?_, hcell.2.2.1, hcell.2.2.2, hcell.1, hcell.2.1⟩
    rw [pushed_eq, hstep]
    rfl
  · intro x v hvu
    exact push_frame_prev c hw x u v hvu
  · intro hw' ev' hfail' ha' hh'
    have hact' : drive_status_unit_active c hw' u = 0 :=
      (get_rc_ne_zero_iff c hw' u _ _ _).mp hfail'
    have hstep : stepCell c hw' u (cell (monitor_drivestatus_poll c hw ev w) u) =
        (cell (monitor_drivestatus_poll c hw ev w) u, []) := by
      simp [stepCell, hact', cell, hinv]
    have hW := poll_connected c hw ev w cl he hc ha hh
    have he' : (monitor_drivestatus_poll c hw ev w).srv.server_enabled ≠ 0 := by
      rw [hW]
      exact he
    have hc' : (monitor_drivestatus_poll c hw ev w).srv.client_socket = some cl := by
      rw [hW]
      exact hc
    constructor
    · rw [pushed_eq, hstep]
      rfl
    · have hcell' := poll_connected_cell c hw' ev' _ cl he' hc' ha' hh' u hu
      rw [hstep] at hcell'
      have := congrArg UnitCell.valid hcell'
      exact this.trans hinv

theorem diff_rule_inactive_witness :
    (scenario_connected.srv.server_enabled ≠ 0 ∧ scenario_connected.srv.client_socket = some 7 ∧
      ¬ accepts scenario_connected ev_quiet ∧ ¬ hangs_up ev_quiet ∧
      0 < viceConsts.NUM_DISK_UNITS ∧
      (drive_status_get viceConsts no_drives 0 uninit_status 0 scenario_connected.reg).rc ≠ 0 ∧
      scenario_connected.srv.prev_valid 0 ≠ 0) ∧
    (pushed viceConsts no_drives scenario_connected 0 = [(some 7, error_line)] ∧
      (monitor_drivestatus_poll viceConsts no_drives ev_quiet scenario_connected).srv.prev_valid 0
        = 0) :=
  ⟨⟨by decide, by decide, by decide, by decide, by decide, by decide, by decide⟩,
    (diff_rule_inactive viceConsts no_drives ev_quiet scenario_connected 7 0
      (by decide) (by decide) (by decide) (by decide) (by decide) (by decide)).2.1 (by decide)⟩

/-! ## Disconnect -/

/-- C6 (amended). Disconnect handling.  For every state with a client, in a poll
without a new connection in which the client is readable: if the server is
enabled, a receive result `<= 0` closes the client and leaves no client, the
listening socket and the enabled flag as they were (so the server is Listening
when it had a listening socket), every cache entry below `NUM_DISK_UNITS`
invalid, nothing sent and the registry unchanged; a receive result `> 0` gives
the same world as a poll in which the client was not readable; and while the
server is disabled the poll changes nothing. -/
theorem disconnect_handling (c : Consts) (hw : Hardware) (ev : PollEvents) (w : World)
    (cl : Nat) (hc : w.srv.client_socket = some cl) (ha : ¬ accepts w ev)
    (hr : ev.client_ready = true) :
    (w.srv.server_enabled ≠ 0 → ev.received ≤ 0 →
        (monitor_drivestatus_poll c hw ev w).srv.client_socket = none ∧
          (monitor_drivestatus_poll c hw ev w).srv.listen_socket = w.srv.listen_socket ∧
          (monitor_drivestatus_poll c hw ev w).srv.server_enabled = w.srv.server_enabled ∧
          (∀ u, u < c.NUM_DISK_UNITS →
            (monitor_drivestatus_poll c hw ev w).srv.prev_valid u = 0) ∧
          (monitor_drivestatus_poll c hw ev w).sent = w.sent ∧
          (monitor_drivestatus_poll c hw ev w).reg = w.reg ∧
          (monitor_drivestatus_poll c hw ev w).closed = w.closed ++ [cl]) ∧
      (0 < ev.received →
        monitor_drivestatus_poll c hw ev w =
          monitor_drivestatus_poll c hw { ev with client_ready := false } w) ∧
      (w.srv.server_enabled = 0 → monitor_drivestatus_poll c hw ev w = w) := by
  refine ⟨?_, ?_, ?_⟩
  · intro he hle
    have hpoll : monitor_drivestatus_poll c hw ev w = drivestatus_server_close_client c w := by
      unfold monitor_drivestatus_poll
      rw [if_neg he]
      simp only [poll_listen_no_accept c hw ev w ha, hc]
      rw [if_pos ⟨hr, hle⟩]
    rw [hpoll]
    unfold drivestatus_server_close_client
    simp only [hc]
    refine ⟨?_, ?_, ?_, ?_, ?_, ?_, ?_⟩
    all_goals first
      | trivial
      | rfl
      | (intro u hu
         rw [reset_prev_valid]
         simp [hu])
  · intro hpos
    have hh : ¬ hangs_up ev := fun h => absurd h.2 (not_le.mpr hpos)
    have hh' : ¬ hangs_up { ev with client_ready := false } := fun h =>
      absurd h.1 (by simp)
    have ha' : ¬ accepts w { ev with client_ready := false } := ha
    by_cases he : w.srv.server_enabled = 0
    · rw [poll_idle c hw ev w (Or.inl he) ha, poll_idle c hw _ w (Or.inl he) ha']
    · rw [poll_connected c hw ev w cl he hc ha hh,
        poll_connected c hw _ w cl he hc ha' hh']
  · intro he
    exact poll_idle c hw ev w (Or.inl he) ha

theorem disconnect_handling_witness :
    (scenario_connected.srv.client_socket = some 7 ∧ ¬ accepts scenario_connected ev_hangup ∧
      ev_hangup.client_ready = true ∧ scenario_connected.srv.server_enabled ≠ 0 ∧
      ev_hangup.received ≤ 0) ∧
    ((monitor_drivestatus_poll viceConsts scenario_hw ev_hangup scenario_connected).srv.client_socket
        = none ∧
      (monitor_drivestatus_poll viceConsts scenario_hw ev_hangup scenario_connected).srv.listen_socket
        = scenario_connected.srv.listen_socket ∧
      (monitor_drivestatus_poll viceConsts scenario_hw ev_hangup
        scenario_connected).srv.server_enabled = scenario_connected.srv.server_enabled ∧
      (∀ u, u < viceConsts.NUM_DISK_UNITS →
        (monitor_drivestatus_poll viceConsts scenario_hw ev_hangup
          scenario_connected).srv.prev_valid u = 0) ∧
      (monitor_drivestatus_poll viceConsts scenario_hw ev_hangup scenario_connected).sent =
        scenario_connected.sent ∧
      (monitor_drivestatus_poll viceConsts scenario_hw ev_hangup scenario_connected).reg =
        scenario_connected.reg ∧
      (monitor_drivestatus_poll viceConsts scenario_hw ev_hangup scenario_connected).closed =
        scenario_connected.closed ++ [7]) :=
  ⟨⟨by decide, by decide, rfl, by decide, by decide⟩,
    (disconnect_handling viceConsts scenario_hw ev_hangup scenario_connected 7
      (by decide) (by decide) rfl).1 (by decide) (by decide)⟩

/-- C6, as stated, fails in two states that have a client.  After an address
change whose bind fails, the server is enabled with client 7 and no listening
socket: the hang-up poll drops the client but there is no listening socket
afterwards, so the server is not Listening.  After a disable with client 7
connected, the hang-up poll does nothing: the client and the valid cache entry
of unit 0 are still there. -/
theorem disconnect_not_listening_counterexample :
    ((run_sys viceConsts listener_lost_calls initial_world).srv.server_enabled ≠ 0 ∧
        (run_sys viceConsts listener_lost_calls initial_world).srv.client_socket = some 7 ∧
        (run_sys viceConsts listener_lost_calls initial_world).srv.listen_socket = none ∧
        (monitor_drivestatus_poll viceConsts scenario_hw ev_hangup
          (run_sys viceConsts listener_lost_calls initial_world)).srv.client_socket = none ∧
        (monitor_drivestatus_poll viceConsts scenario_hw ev_hangup
          (run_sys viceConsts listener_lost_calls initial_world)).srv.listen_socket = none) ∧
      ((run_sys viceConsts disabled_client_calls initial_world).srv.server_enabled = 0 ∧
        (run_sys viceConsts disabled_client_calls initial_world).srv.client_socket = some 7 ∧
        (monitor_drivestatus_poll viceConsts scenario_hw ev_hangup
          (run_sys viceConsts disabled_client_calls initial_world)).srv.client_socket = some 7 ∧
        (monitor_drivestatus_poll viceConsts scenario_hw ev_hangup
          (run_sys viceConsts disabled_client_calls initial_world)).srv.prev_valid 0 ≠ 0) := by
  decide

/-! ## Enabling and disabling -/

/-- Whatever activation does, `set_server_enabled` with a non-zero value returns
0 and leaves `server_enabled = 1`: the error value of
`drivestatus_server_activate` is 1 and the test is `< 0`. -/
theorem set_server_enabled_never_fails (env : NetEnv) (value : Int) (w : World)
    (hv : value ≠ 0) :
    (set_server_enabled env value w).2 = 0 ∧
      (set_server_enabled env value w).1.srv.server_enabled = 1 := by
  have hact : ¬ (drivestatus_server_activate env w).2 < 0 := by
    unfold drivestatus_server_activate
    repeat' split
    all_goals simp
  unfold set_server_enabled
  simp only [hv, ne_eq, not_false_eq_true, if_true]
  rw [if_neg (by decide)]
  by_cases he : w.srv.server_enabled = 0
  · simp only [he, if_true, true_and]
    rw [if_neg hact]
    exact ⟨rfl, rfl⟩
  · simp [he]

/-- C7 (code defect). With the server disabled and the default address set, a
`set_server_enabled 1` whose listening socket cannot be created has
`drivestatus_server_activate` return 1, yet the setter returns 0 and leaves
`server_enabled = 1` with no listening socket: the failure is not reported and
the server does not stay disabled. -/
theorem failed_activation_reports_success :
    disabled_world.srv.server_enabled = 0 ∧
      disabled_world.srv.listen_socket = none ∧
      (drivestatus_server_activate env_bind_fails disabled_world).2 = 1 ∧
      (set_server_enabled env_bind_fails 1 disabled_world).2 = 0 ∧
      (set_server_enabled env_bind_fails 1 disabled_world).1.srv.server_enabled = 1 ∧
      (set_server_enabled env_bind_fails 1 disabled_world).1.srv.listen_socket = none := by
  decide

/-- C8 (amended). Disable.  For every enabled server state, `set_server_enabled 0`
returns 0 and leaves the server disabled with no listening socket, the old
listening socket having been closed and nothing else; the client socket, the
delivered cache, the send log and the registry are left as they were, so a
connected client is neither closed nor forgotten. -/
theorem disable_closes_listener (env : NetEnv) (w : World) (he : w.srv.server_enabled ≠ 0) :
    (set_server_enabled env 0 w).2 = 0 ∧
      (set_server_enabled env 0 w).1.srv.server_enabled = 0 ∧
      (set_server_enabled env 0 w).1.srv.listen_socket = none ∧
      (set_server_enabled env 0 w).1.closed = w.closed ++ w.srv.listen_socket.toList ∧
      (set_server_enabled env 0 w).1.srv.client_socket = w.srv.client_socket ∧
      (set_server_enabled env 0 w).1.srv.prev_valid = w.srv.prev_valid ∧
      (set_server_enabled env 0 w).1.srv.prev_status = w.srv.prev_status ∧
      (set_server_enabled env 0 w).1.sent = w.sent ∧
      (set_server_enabled env 0 w).1.reg = w.reg := by
  unfold set_server_enabled
  simp only [ne_eq, not_true_eq_false, if_false, if_true, he, not_false_eq_true]
  unfold drivestatus_server_deactivate
  cases hl : w.srv.listen_socket with
  | none => simp [hl]
  | some l => simp

theorem disable_closes_listener_witness :
    scenario_connected.srv.server_enabled ≠ 0 ∧
      ((set_server_enabled env_bind_ok 0 scenario_connected).2 = 0 ∧
        (set_server_enabled env_bind_ok 0 scenario_connected).1.srv.server_enabled = 0 ∧
        (set_server_enabled env_bind_ok 0 scenario_connected).1.srv.listen_socket = none ∧
        (set_server_enabled env_bind_ok 0 scenario_connected).1.closed =
          scenario_connected.closed ++ scenario_connected.srv.listen_socket.toList ∧
        (set_server_enabled env_bind_ok 0 scenario_connected).1.srv.client_socket =
          scenario_connected.srv.client_socket) :=
  ⟨by decide,
    have h := disable_closes_listener env_bind_ok scenario_connected (by decide)
    ⟨h.1, h.2.1, h.2.2.1, h.2.2.2.1, h.2.2.2.2.1⟩⟩

/-- C8, as stated, fails: disabling the server of the connected scenario leaves
`client_socket` holding client 7, and only the listening socket 3 is closed;
after enabling again the old client is still there. -/
theorem disable_keeps_client_counterexample :
    scenario_connected.srv.server_enabled ≠ 0 ∧
      scenario_connected.srv.listen_socket = some 3 ∧
      scenario_connected.srv.client_socket = some 7 ∧
      (set_server_enabled env_bind_ok 0 scenario_connected).1.srv.client_socket = some 7 ∧
      (set_server_enabled env_bind_ok 0 scenario_connected).1.srv.client_socket ≠ none ∧
      (set_server_enabled env_bind_ok 0 scenario_connected).1.closed = [3] ∧
      (set_server_enabled env_bind_ok 1
        (set_server_enabled env_bind_ok 0 scenario_connected).1).1.srv.client_socket = some 7 := by
  decide

/-! ## The registry -/

/-- C9. Snapshot failure is atomic.  `drive_status_get` returns -1 exactly when
the unit is out of range or `drive_status_unit_active` is false, and 0 exactly
when the unit is in range and active, for either value of `clear_step`; when it
returns -1 the registry (motor cache and step flags of every unit) and the
caller's record are left as they were. -/
theorem snapshot_failure_atomic (c : Consts) (hw : Hardware) (u : Nat) (st : drive_status_t)
    (cl : Int) (r : Registry) :
    ((u ≥ c.NUM_DISK_UNITS ∨ drive_status_unit_active c hw u = 0) ↔
        (drive_status_get c hw u st cl r).rc = -1) ∧
      ((u < c.NUM_DISK_UNITS ∧ drive_status_unit_active c hw u ≠ 0) ↔
        (drive_status_get c hw u st cl r).rc = 0) ∧
      ((u ≥ c.NUM_DISK_UNITS ∨ drive_status_unit_active c hw u = 0) →
        (drive_status_get c hw u st cl r).reg = r ∧
          (drive_status_get c hw u st cl r).status = st) := by
  have hrange : u ≥ c.NUM_DISK_UNITS → drive_status_unit_active c hw u = 0 := by
    intro hu
    unfold drive_status_unit_active
    rw [if_pos hu]
  by_cases h : drive_status_unit_active c hw u = 0
  · rw [get_inactive c hw u st cl r h]
    refine ⟨⟨fun _ => rfl, fun _ => Or.inr h⟩, ⟨fun hh => absurd h hh.2, fun hh => ?_⟩,
      fun _ => ⟨rfl, rfl⟩⟩
    have hne : ((-1 : Int) = 0) := hh
    exact absurd hne (by decide)
  · have hlt := unit_active_lt h
    have hrc : (drive_status_get c hw u st cl r).rc = 0 := by
      rw [get_rc, if_neg h]
    rw [hrc]
    refine ⟨⟨fun hh => ?_, fun hh => absurd (hh : (0 : Int) = -1) (by decide)⟩,
      ⟨fun _ => rfl, fun _ => ⟨hlt, h⟩⟩,
      fun hh => ?_⟩
    · rcases hh with hh | hh
      · exact absurd (hrange hh) h
      · exact absurd hh h
    · rcases hh with hh | hh
      · exact absurd (hrange hh) h
      · exact absurd hh h

theorem snapshot_failure_atomic_witness :
    (1 < viceConsts.NUM_DISK_UNITS ∧ drive_status_unit_active viceConsts scenario_hw 1 = 0) ∧
      ((drive_status_get viceConsts scenario_hw 1 uninit_status 1 scenario_world.reg).rc = -1 ∧
        (drive_status_get viceConsts scenario_hw 1 uninit_status 1 scenario_world.reg).reg =
          scenario_world.reg ∧
        (drive_status_get viceConsts scenario_hw 1 uninit_status 1 scenario_world.reg).status =
          uninit_status) :=
  have h := snapshot_failure_atomic viceConsts scenario_hw 1 uninit_status 1 scenario_world.reg
  ⟨⟨by decide, by decide⟩, h.1.mp (Or.inr (by decide)), h.2.2 (Or.inr (by decide))⟩

theorem get_keeps_known_motor (c : Consts) (hw : Hardware) (v u : Nat) (st : drive_status_t)
    (cl : Int) (r : Registry) (hm : 0 ≤ r.drive_status_motor u) :
    (drive_status_get c hw v st cl r).reg.drive_status_motor u = r.drive_status_motor u := by
  by_cases h : drive_status_unit_active c hw v = 0
  · rw [get_inactive c hw v st cl r h]
  · obtain ⟨ctx, hctx⟩ := unit_active_ctx h
    rw [get_active c hw v st cl r ctx hctx h]
    by_cases hvu : u = v
    · subst hvu
      simp only [Function.update_same]
      exact motor_read_idem c ctx _ hm
    · simp only [Function.update_noteq hvu]

theorem apply_keeps_known_motor (c : Consts) (u : Nat) (op : RegOp) (r : Registry)
    (hm : 0 ≤ r.drive_status_motor u) (hop : ¬ op.overrides_motor u) :
    (op.apply c r).drive_status_motor u = r.drive_status_motor u := by
  cases op with
  | get hw v st cl => exact get_keeps_known_motor c hw v u st cl r hm
  | set_step_event v =>
    simp only [RegOp.apply, drive_status_set_step_event]
    split <;> rfl
  | set_motor v mo =>
    have hvu : u ≠ v := fun h => hop h.symm
    simp only [RegOp.apply, drive_status_set_motor]
    split
    · rfl
    · simp only [Function.update_noteq hvu]
  | reset_unit v =>
    have hvu : u ≠ v := fun h => hop h.symm
    simp only [RegOp.apply, drive_status_reset_unit]
    split
    · rfl
    · simp only [Function.update_noteq hvu]
  | init => exact absurd trivial hop

theorem run_keeps_known_motor (c : Consts) (u : Nat) (ops : List RegOp) (r : Registry)
    (hm : 0 ≤ r.drive_status_motor u) (hops : ∀ op, op ∈ ops → ¬ op.overrides_motor u) :
    (run_ops c ops r).drive_status_motor u = r.drive_status_motor u := by
  induction ops generalizing r with
  | nil => rfl
  | cons op ops ih =>
    have hstep := apply_keeps_known_motor c u op r hm (hops op (List.mem_cons_self op ops))
    have hm' : 0 ≤ (op.apply c r).drive_status_motor u := by rw [hstep]; exact hm
    have := ih (op.apply c r) hm' (fun o ho => hops o (List.mem_cons_of_mem op ho))
    unfold run_ops at this ⊢
    rw [List.foldl_cons, this, hstep]

/-- C10. Motor caching.  For an active unit whose motor cache is Unknown
(negative), `drive_status_get` succeeds, reports `motor_on` as 1 or 0 according
to the hardware motor-active bit, and stores that value in the cache.  After any
sequence of registry calls among which there is no `drive_status_set_motor` or
`drive_status_reset_unit` of that unit and no `drive_status_init`, every
successful `drive_status_get` of the unit reports the same `motor_on`, whatever
the hardware says at that time. -/
theorem motor_caching (c : Consts) (hw : Hardware) (u : Nat) (st : drive_status_t) (cl : Int)
    (r : Registry) (ctx : diskunit_context_t) (hctx : hw u = some ctx)
    (hact : drive_status_unit_active c hw u ≠ 0) (hunk : r.drive_status_motor u < 0) :
    (drive_status_get c hw u st cl r).rc = 0 ∧
      (drive_status_get c hw u st cl r).status.motor_on =
        (if ctx.drive0.byte_ready_active &&& c.BRA_MOTOR_ON ≠ 0 then 1 else 0) ∧
      (drive_status_get c hw u st cl r).reg.drive_status_motor u =
        (drive_status_get c hw u st cl r).status.motor_on ∧
      ∀ (ops : List RegOp), (∀ op, op ∈ ops → ¬ op.overrides_motor u) →
        ∀ (hw' : Hardware) (st' : drive_status_t) (cl' : Int),
          drive_status_unit_active c hw' u ≠ 0 →
          (drive_status_get c hw' u st' cl'
              (run_ops c ops (drive_status_get c hw u st cl r).reg)).rc = 0 ∧
            (drive_status_get c hw' u st' cl'
              (run_ops c ops (drive_status_get c hw u st cl r).reg)).status.motor_on =
              (drive_status_get c hw u st cl r).status.motor_on := by
  have hreg : (drive_status_get c hw u st cl r).reg.drive_status_motor u =
      motor_read c ctx (r.drive_status_motor u) := by
    rw [get_active c hw u st cl r ctx hctx hact]
    simp only [Function.update_same]
  have hst : (drive_status_get c hw u st cl r).status.motor_on =
      motor_read c ctx (r.drive_status_motor u) := by
    rw [get_status_active c hw u st cl r ctx hctx hact]
    rfl
  refine ⟨by rw [get_rc, if_neg hact], ?_, by rw [hreg, hst], ?_⟩
  · rw [hst]
    unfold motor_read
    rw [if_pos hunk]
  · intro ops hops hw' st' cl' hact'
    obtain ⟨ctx', hctx'⟩ := unit_active_ctx hact'
    have hnn : 0 ≤ (drive_status_get c hw u st cl r).reg.drive_status_motor u := by
      rw [hreg]
      exact motor_read_nonneg c ctx _
    have hrun := run_keeps_known_motor c u ops _ hnn hops
    refine ⟨by rw [get_rc, if_neg hact'], ?_⟩
    rw [get_status_active c hw' u st' cl' _ ctx' hctx' hact', hst]
    show motor_read c ctx' _ = _
    rw [hrun, hreg]
    exact motor_read_idem c ctx' _ (motor_read_nonneg c ctx _)

theorem motor_caching_witness :
    (drive_status_unit_active viceConsts scenario_hw 0 ≠ 0 ∧
      disabled_world.reg.drive_status_motor 0 < 0 ∧
      (∀ op, op ∈ scenario_ops → ¬ op.overrides_motor 0) ∧
      drive_status_unit_active viceConsts scenario_hw_motor_off 0 ≠ 0) ∧
    ((drive_status_get viceConsts scenario_hw 0 uninit_status 0 disabled_world.reg).status.motor_on
        = (if (4 : Nat) &&& viceConsts.BRA_MOTOR_ON ≠ 0 then 1 else 0) ∧
      (drive_status_get viceConsts scenario_hw_motor_off 0 uninit_status 0
        (run_ops viceConsts scenario_ops
          (drive_status_get viceConsts scenario_hw 0 uninit_status 0
            disabled_world.reg).reg)).status.motor_on =
        (drive_status_get viceConsts scenario_hw 0 uninit_status 0
          disabled_world.reg).status.motor_on) :=
  have h := motor_caching viceConsts scenario_hw 0 uninit_status 0 disabled_world.reg
    { enable := 1, type := 1541,
      drive0 := { byte_ready_active := 4, led_status := 1, current_half_track := 35,
                  read_write_mode := 1 } }
    rfl (by decide) (by decide)
  ⟨⟨by decide, by decide, by decide, by decide⟩, h.2.1,
    (h.2.2.2 scenario_ops (by decide) scenario_hw_motor_off uninit_status 0 (by decide)).2⟩

/-! ## Step flag, track, read/write mode, override and reset -/

/-- C11. Step flag peek/take.  For an active unit, a read with `clear_step = 0`
reports the unit's step flag and leaves the step flags of all units as they
were; a read with `clear_step` non-zero reports the same value and leaves the
unit's flag 0 and the flags of all other units as they were, so that a read
with `clear_step = 0` right after it (whatever the hardware shows, the unit
being active) reports `step_event = 0`. -/
theorem step_peek_take (c : Consts) (hw : Hardware) (u : Nat) (st : drive_status_t) (cl : Int)
    (r : Registry) (hact : drive_status_unit_active c hw u ≠ 0) (hcl : cl ≠ 0) :
    (drive_status_get c hw u st 0 r).status.step_event = r.drive_status_step u ∧
      (drive_status_get c hw u st 0 r).reg.drive_status_step = r.drive_status_step ∧
      (drive_status_get c hw u st cl r).status.step_event = r.drive_status_step u ∧
      (drive_status_get c hw u st cl r).reg.drive_status_step u = 0 ∧
      (∀ v, v ≠ u →
        (drive_status_get c hw u st cl r).reg.drive_status_step v = r.drive_status_step v) ∧
      (∀ (hw' : Hardware) (st' : drive_status_t), drive_status_unit_active c hw' u ≠ 0 →
        (drive_status_get c hw' u st' 0
          (drive_status_get c hw u st cl r).reg).status.step_event = 0) := by
  obtain ⟨ctx, hctx⟩ := unit_active_ctx hact
  have hclear : (drive_status_get c hw u st cl r).reg.drive_status_step =
      Function.update r.drive_status_step u 0 := by
    rw [get_active c hw u st cl r ctx hctx hact]
    simp only [if_pos hcl]
  refine ⟨?_, ?_, ?_, ?_, ?_, ?_⟩
  · rw [get_status_active c hw u st 0 r ctx hctx hact, status_read_step_event]
  · rw [get_active c hw u st 0 r ctx hctx hact]
    simp
  · rw [get_status_active c hw u st cl r ctx hctx hact, status_read_step_event]
  · rw [hclear, Function.update_same]
  · intro v hv
    rw [hclear, Function.update_noteq hv]
  · intro hw' st' hact'
    obtain ⟨ctx', hctx'⟩ := unit_active_ctx hact'
    rw [get_status_active c hw' u st' 0 _ ctx' hctx' hact', status_read_step_event, hclear,
      Function.update_same]

theorem step_peek_take_witness :
    (drive_status_unit_active viceConsts scenario_hw 0 ≠ 0 ∧ (1 : Int) ≠ 0) ∧
      ((drive_status_get viceConsts scenario_hw 0 uninit_status 0 scenario_world.reg).status.step_event
          = scenario_world.reg.drive_status_step 0 ∧
        (drive_status_get viceConsts scenario_hw 0 uninit_status 0
          scenario_world.reg).reg.drive_status_step = scenario_world.reg.drive_status_step ∧
        (drive_status_get viceConsts scenario_hw 0 uninit_status 1 scenario_world.reg).status.step_event
          = scenario_world.reg.drive_status_step 0 ∧
        (drive_status_get viceConsts scenario_hw 0 uninit_status 1
          scenario_world.reg).reg.drive_status_step 0 = 0) :=
  have h := step_peek_take viceConsts scenario_hw 0 uninit_status 1 scenario_world.reg
    (by decide) (by decide)
  ⟨⟨by decide, by decide⟩, h.1, h.2.1, h.2.2.1, h.2.2.2.1⟩

theorem wrap32_small (x : Int) (h0 : 0 ≤ x) (h1 : x < 2 ^ 31) : wrap32 x = x := by
  unfold wrap32
  omega

/-- C13. Track derivation.  For a successful read of a unit whose
`current_half_track` is `h`, with `h + 1` representable in a C `int`, the
reported track is 0 when `h <= 0` and `ceil (h / 2)` when `h > 0`, and it is
never negative; two successful reads (of any units, on any hardware and
registry) whose drives have the same half-track report the same track.  In
particular 35 gives 18, 0 gives 0 and 1 gives 1. -/
theorem track_derivation (c : Consts) (hw : Hardware) (u : Nat) (st : drive_status_t)
    (cl : Int) (r : Registry) (ctx : diskunit_context_t) (hctx : hw u = some ctx)
    (hok : (drive_status_get c hw u st cl r).rc = 0)
    (hint : ctx.drive0.current_half_track < 2 ^ 31 - 1) :
    0 ≤ (drive_status_get c hw u st cl r).status.track ∧
      (ctx.drive0.current_half_track ≤ 0 → (drive_status_get c hw u st cl r).status.track = 0) ∧
      (0 < ctx.drive0.current_half_track →
        (drive_status_get c hw u st cl r).status.track =
          Int.ceil ((ctx.drive0.current_half_track : ℚ) / 2)) ∧
      (ctx.drive0.current_half_track = 35 → (drive_status_get c hw u st cl r).status.track = 18) ∧
      (ctx.drive0.current_half_track = 1 → (drive_status_get c hw u st cl r).status.track = 1) ∧
      (∀ (c' : Consts) (hw' : Hardware) (u' : Nat) (st' : drive_status_t) (cl' : Int)
          (r' : Registry) (ctx' : diskunit_context_t), hw' u' = some ctx' →
        (drive_status_get c' hw' u' st' cl' r').rc = 0 →
        ctx'.drive0.current_half_track = ctx.drive0.current_half_track →
        (drive_status_get c' hw' u' st' cl' r').status.track =
          (drive_status_get c hw u st cl r).status.track) := by
  have hact : drive_status_unit_active c hw u ≠ 0 := by
    intro h0
    rw [get_rc, if_pos h0] at hok
    exact absurd hok (by decide)
  have htrack : ∀ (c' : Consts) (hw' : Hardware) (u' : Nat) (st' : drive_status_t) (cl' : Int)
      (r' : Registry) (ctx' : diskunit_context_t), hw' u' = some ctx' →
      (drive_status_get c' hw' u' st' cl' r').rc = 0 →
      (drive_status_get c' hw' u' st' cl' r').status.track =
        if ctx'.drive0.current_half_track > 0 then
          (wrap32 (ctx'.drive0.current_half_track + 1)).tdiv 2
        else 0 := by
    intro c' hw' u' st' cl' r' ctx' hctx' hok'
    have hact' : drive_status_unit_active c' hw' u' ≠ 0 := by
      intro h0
      rw [get_rc, if_pos h0] at hok'
      exact absurd hok' (by decide)
    rw [get_status_active c' hw' u' st' cl' r' ctx' hctx' hact']
    rfl
  have hpos : 0 < ctx.drive0.current_half_track →
      (drive_status_get c hw u st cl r).status.track = (ctx.drive0.current_half_track + 1) / 2 := by
    intro hp
    rw [htrack c hw u st cl r ctx hctx hok, if_pos hp,
      wrap32_small _ (by omega) (by omega), Int.tdiv_eq_ediv (by omega) (by decide)]
  refine ⟨?_, ?_, ?_, ?_, ?_, ?_⟩
  · by_cases hp : 0 < ctx.drive0.current_half_track
    · rw [hpos hp]
      omega
    · rw [htrack c hw u st cl r ctx hctx hok, if_neg hp]
  · intro hle
    rw [htrack c hw u st cl r ctx hctx hok, if_neg (by omega)]
  · intro hp
    rw [hpos hp]
    symm
    rw [Int.ceil_eq_iff]
    constructor
    · have : ((((ctx.drive0.current_half_track + 1) / 2 : Int) : ℚ) - 1) * 2 <
          (ctx.drive0.current_half_track : ℚ) := by
        have h2 : ((ctx.drive0.current_half_track + 1) / 2 - 1) * 2 <
            ctx.drive0.current_half_track := by omega
        exact_mod_cast h2
      linarith
    · have : (ctx.drive0.current_half_track : ℚ) ≤
          (((ctx.drive0.current_half_track + 1) / 2 : Int) : ℚ) * 2 := by
        have h2 : ctx.drive0.current_half_track ≤
            (ctx.drive0.current_half_track + 1) / 2 * 2 := by omega
        exact_mod_cast h2
      linarith
  · intro h35
    rw [hpos (by omega), h35]
    rfl
  · intro h1
    rw [hpos (by omega), h1]
    rfl
  · intro c' hw' u' st' cl' r' ctx' hctx' hok' heq
    rw [htrack c' hw' u' st' cl' r' ctx' hctx' hok', htrack c hw u st cl r ctx hctx hok, heq]

theorem track_derivation_witness :
    ((drive_status_get viceConsts scenario_hw 0 uninit_status 0 scenario_world.reg).rc = 0 ∧
      (35 : Int) < 2 ^ 31 - 1) ∧
    (0 ≤ (drive_status_get viceConsts scenario_hw 0 uninit_status 0 scenario_world.reg).status.track ∧
      (drive_status_get viceConsts scenario_hw 0 uninit_status 0 scenario_world.reg).status.track
        = 18) :=
  have h := track_derivation viceConsts scenario_hw 0 uninit_status 0 scenario_world.reg
    { enable := 1, type := 1541,
      drive0 := { byte_ready_active := 4, led_status := 1, current_half_track := 35,
                  read_write_mode := 1 } }
    rfl (by decide) (by decide)
  ⟨⟨by decide, by decide⟩, h.1, h.2.2.2.1 rfl⟩

/-- C13, as stated, fails at the largest half-track a C `int` can hold: the sum
`current_half_track + 1` wraps, and the successful read reports the negative
track -1073741824 instead of `ceil (2147483647 / 2) = 1073741824`. -/
theorem track_overflow_counterexample :
    (drive_status_get viceConsts hw_track_max 0 uninit_status 0 registry_start).rc = 0 ∧
      (drive_status_get viceConsts hw_track_max 0 uninit_status 0 registry_start).status.track
        = -1073741824 ∧
      ¬ (0 ≤ (drive_status_get viceConsts hw_track_max 0 uninit_status 0
        registry_start).status.track) := by
  decide

/-- C14. Read/write mode mapping.  For a successful read, `rw_mode` is 0 exactly
when the reported `motor_on` is 0; when `motor_on` is not 0, `rw_mode` is 1 if
the drive's `read_write_mode` flag is non-zero and 2 if it is zero; `rw_mode` is
always 0, 1 or 2. -/
theorem rw_mode_mapping (c : Consts) (hw : Hardware) (u : Nat) (st : drive_status_t)
    (cl : Int) (r : Registry) (ctx : diskunit_context_t) (hctx : hw u = some ctx)
    (hok : (drive_status_get c hw u st cl r).rc = 0) :
    ((drive_status_get c hw u st cl r).status.rw_mode = 0 ↔
        (drive_status_get c hw u st cl r).status.motor_on = 0) ∧
      ((drive_status_get c hw u st cl r).status.motor_on ≠ 0 →
        (ctx.drive0.read_write_mode ≠ 0 → (drive_status_get c hw u st cl r).status.rw_mode = 1) ∧
          (ctx.drive0.read_write_mode = 0 →
            (drive_status_get c hw u st cl r).status.rw_mode = 2)) ∧
      ((drive_status_get c hw u st cl r).status.rw_mode = 0 ∨
        (drive_status_get c hw u st cl r).status.rw_mode = 1 ∨
        (drive_status_get c hw u st cl r).status.rw_mode = 2) := by
  have hact : drive_status_unit_active c hw u ≠ 0 := by
    intro h0
    rw [get_rc, if_pos h0] at hok
    exact absurd hok (by decide)
  rw [get_status_active c hw u st cl r ctx hctx hact]
  simp only [status_read]
  by_cases hm : motor_read c ctx (r.drive_status_motor u) = 0
  · simp [hm]
  · by_cases hrw : ctx.drive0.read_write_mode = 0
    · simp [hm, hrw]
    · simp [hm, hrw]

theorem rw_mode_mapping_witness :
    (drive_status_get viceConsts scenario_hw 0 uninit_status 0 scenario_world.reg).rc = 0 ∧
      (((drive_status_get viceConsts scenario_hw 0 uninit_status 0
            scenario_world.reg).status.rw_mode = 0 ↔
          (drive_status_get viceConsts scenario_hw 0 uninit_status 0
            scenario_world.reg).status.motor_on = 0) ∧
        (drive_status_get viceConsts scenario_hw 0 uninit_status 0
          scenario_world.reg).status.rw_mode = 1) :=
  have h := rw_mode_mapping viceConsts scenario_hw 0 uninit_status 0 scenario_world.reg
    { enable := 1, type := 1541,
      drive0 := { byte_ready_active := 4, led_status := 1, current_half_track := 35,
                  read_write_mode := 1 } }
    rfl (by decide)
  ⟨by decide, h.1, (h.2.1 (by decide)).1 (by decide)⟩

/-- C17. Motor override.  For a unit below `NUM_DISK_UNITS` and any `motor_on`,
`drive_status_set_motor` leaves the unit's motor cache 1 if `motor_on` is
non-zero and 0 otherwise, leaves every step flag and the motor cache of every
other unit as they were, and the next successful read of the unit reports that
value whatever the hardware motor bit is; for a unit out of range the call
changes nothing. -/
theorem motor_override (c : Consts) (u : Nat) (mo : Int) (r : Registry) :
    (u < c.NUM_DISK_UNITS →
        (drive_status_set_motor c u mo r).drive_status_motor u = (if mo ≠ 0 then 1 else 0) ∧
          (drive_status_set_motor c u mo r).drive_status_step = r.drive_status_step ∧
          (∀ v, v ≠ u →
            (drive_status_set_motor c u mo r).drive_status_motor v = r.drive_status_motor v) ∧
          (∀ (hw : Hardware) (st : drive_status_t) (cl : Int),
            drive_status_unit_active c hw u ≠ 0 →
            (drive_status_get c hw u st cl (drive_status_set_motor c u mo r)).rc = 0 ∧
              (drive_status_get c hw u st cl (drive_status_set_motor c u mo r)).status.motor_on
                = (if mo ≠ 0 then 1 else 0))) ∧
      (c.NUM_DISK_UNITS ≤ u → drive_status_set_motor c u mo r = r) := by
  constructor
  · intro hu
    have hset : drive_status_set_motor c u mo r =
        { r with drive_status_motor :=
            Function.update r.drive_status_motor u (if mo ≠ 0 then 1 else 0) } := by
      unfold drive_status_set_motor
      rw [if_neg (Nat.not_le_of_lt hu)]
    rw [hset]
    refine ⟨by simp only [Function.update_same], rfl, ?_, ?_⟩
    · intro v hv
      simp only [Function.update_noteq hv]
    · intro hw st cl hact
      obtain ⟨ctx, hctx⟩ := unit_active_ctx hact
      refine ⟨by rw [get_rc, if_neg hact], ?_⟩
      rw [get_status_active c hw u st cl _ ctx hctx hact]
      simp only [status_read, Function.update_same]
      apply motor_read_idem
      split <;> decide
  · intro hu
    unfold drive_status_set_motor
    rw [if_pos hu]

theorem motor_override_witness :
    (0 < viceConsts.NUM_DISK_UNITS ∧
      drive_status_unit_active viceConsts scenario_hw 0 ≠ 0) ∧
      ((drive_status_set_motor viceConsts 0 0 scenario_world.reg).drive_status_motor 0 =
          (if (0 : Int) ≠ 0 then 1 else 0) ∧
        (drive_status_get viceConsts scenario_hw 0 uninit_status 0
          (drive_status_set_motor viceConsts 0 0 scenario_world.reg)).status.motor_on =
          (if (0 : Int) ≠ 0 then 1 else 0)) :=
  have h := (motor_override viceConsts 0 0 scenario_world.reg).1 (by decide)
  ⟨⟨by decide, by decide⟩, h.1, (h.2.2.2 scenario_hw uninit_status 0 (by decide)).2⟩

theorem reset_unit_in_range (c : Consts) (u : Nat) (r : Registry) (hu : u < c.NUM_DISK_UNITS) :
    drive_status_reset_unit c u r =
      { drive_status_motor := Function.update r.drive_status_motor u (-1)
        drive_status_step := Function.update r.drive_status_step u 0 } := by
  unfold drive_status_reset_unit
  rw [if_neg (Nat.not_le_of_lt hu)]

theorem init_loop (c : Consts) (r : Registry) (n : Nat) (hn : n ≤ c.NUM_DISK_UNITS) :
    (List.range n).foldl (fun acc i => drive_status_reset_unit c i acc) r =
      { drive_status_motor := fun v => if v < n then -1 else r.drive_status_motor v
        drive_status_step := fun v => if v < n then 0 else r.drive_status_step v } := by
  induction n with
  | zero => simp
  | succ n ih =>
    rw [List.range_succ, List.foldl_append, ih (Nat.le_of_succ_le hn)]
    simp only [List.foldl_cons, List.foldl_nil]
    rw [reset_unit_in_range c n _ (Nat.lt_of_succ_le hn)]
    simp only
    rw [update_ite_lt n (fun _ => (-1 : Int)) r.drive_status_motor,
      update_ite_lt n (fun _ => (0 : Int)) r.drive_status_step]

theorem init_eq (c : Consts) (r : Registry) :
    drive_status_init c r =
      { drive_status_motor := fun v => if v < c.NUM_DISK_UNITS then -1 else r.drive_status_motor v
        drive_status_step := fun v => if v < c.NUM_DISK_UNITS then 0 else r.drive_status_step v } :=
  init_loop c r c.NUM_DISK_UNITS (Nat.le_refl _)

/-- C18. Reset.  After `drive_status_init` every unit below `NUM_DISK_UNITS` has
motor cache -1 (Unknown) and step flag 0.  `drive_status_reset_unit` does the
same for one unit in range and leaves every other unit's entries as they were;
out of range it changes nothing.  The first successful read of a unit after its
reset, or after `drive_status_init`, reports `step_event = 0` and takes
`motor_on` from the hardware motor-active bit. -/
theorem reset_behaviour (c : Consts) (u : Nat) (r : Registry) :
    (∀ v, v < c.NUM_DISK_UNITS →
        (drive_status_init c r).drive_status_motor v = -1 ∧
          (drive_status_init c r).drive_status_step v = 0) ∧
      (u < c.NUM_DISK_UNITS →
        (drive_status_reset_unit c u r).drive_status_motor u = -1 ∧
          (drive_status_reset_unit c u r).drive_status_step u = 0 ∧
          (∀ v, v ≠ u →
            (drive_status_reset_unit c u r).drive_status_motor v = r.drive_status_motor v ∧
              (drive_status_reset_unit c u r).drive_status_step v = r.drive_status_step v)) ∧
      (c.NUM_DISK_UNITS ≤ u → drive_status_reset_unit c u r = r) ∧
      (∀ (hw : Hardware) (st : drive_status_t) (cl : Int) (ctx : diskunit_context_t),
        hw u = some ctx → drive_status_unit_active c hw u ≠ 0 →
        ((drive_status_get c hw u st cl (drive_status_reset_unit c u r)).rc = 0 ∧
            (drive_status_get c hw u st cl (drive_status_reset_unit c u r)).status.step_event = 0 ∧
            (drive_status_get c hw u st cl (drive_status_reset_unit c u r)).status.motor_on =
              (if ctx.drive0.byte_ready_active &&& c.BRA_MOTOR_ON ≠ 0 then 1 else 0)) ∧
          ((drive_status_get c hw u st cl (drive_status_init c r)).rc = 0 ∧
            (drive_status_get c hw u st cl (drive_status_init c r)).status.step_event = 0 ∧
            (drive_status_get c hw u st cl (drive_status_init c r)).status.motor_on =
              (if ctx.drive0.byte_ready_active &&& c.BRA_MOTOR_ON ≠ 0 then 1 else 0))) := by
  refine ⟨?_, ?_, ?_, ?_⟩
  · intro v hv
    rw [init_eq]
    simp [hv]
  · intro hu
    rw [reset_unit_in_range c u r hu]
    refine ⟨by simp only [Function.update_same], by simp only [Function.update_same], ?_⟩
    intro v hv
    simp only [Function.update_noteq hv, and_self]
  · intro hu
    unfold drive_status_reset_unit
    rw [if_pos hu]
  · intro hw st cl ctx hctx hact
    have hu := unit_active_lt hact
    have hrc : ∀ r', (drive_status_get c hw u st cl r').rc = 0 := by
      intro r'
      rw [get_rc, if_neg hact]
    have hread : ∀ r', r'.drive_status_motor u = -1 → r'.drive_status_step u = 0 →
        (drive_status_get c hw u st cl r').status.step_event = 0 ∧
          (drive_status_get c hw u st cl r').status.motor_on =
            (if ctx.drive0.byte_ready_active &&& c.BRA_MOTOR_ON ≠ 0 then 1 else 0) := by
      intro r' hm hs
      rw [get_status_active c hw u st cl r' ctx hctx hact, hm, hs]
      refine ⟨rfl, ?_⟩
      simp only [status_read, motor_read]
      rw [if_pos (by decide)]
    constructor
    · refine ⟨hrc _, hread _ ?_ ?_⟩
      · rw [reset_unit_in_range c u r hu]
        simp only [Function.update_same]
      · rw [reset_unit_in_range c u r hu]
        simp only [Function.update_same]
    · refine ⟨hrc _, hread _ ?_ ?_⟩
      · rw [init_eq]
        simp [hu]
      · rw [init_eq]
        simp [hu]

theorem reset_behaviour_witness :
    (0 < viceConsts.NUM_DISK_UNITS ∧
      drive_status_unit_active viceConsts scenario_hw 0 ≠ 0) ∧
      ((drive_status_reset_unit viceConsts 0 scenario_world.reg).drive_status_motor 0 = -1 ∧
        (drive_status_reset_unit viceConsts 0 scenario_world.reg).drive_status_step 0 = 0 ∧
        (drive_status_get viceConsts scenario_hw 0 uninit_status 0
          (drive_status_reset_unit viceConsts 0 scenario_world.reg)).status.step_event = 0) :=
  have h := reset_behaviour viceConsts 0 scenario_world.reg
  ⟨⟨by decide, by decide⟩, (h.2.1 (by decide)).1, (h.2.1 (by decide)).2.1,
    (h.2.2.2 scenario_hw uninit_status 0
      { enable := 1, type := 1541,
        drive0 := { byte_ready_active := 4, led_status := 1, current_half_track := 35,
                    read_write_mode := 1 } }
      rfl (by decide)).1.2.1⟩

/-! ## Every poll, whatever the network answers -/

theorem listen_accept (c : Consts) (hw : Hardware) (ev : PollEvents) (w : World) (l cl : Nat)
    (hl : w.srv.listen_socket = some l) (hr : ev.listen_ready = true)
    (ha : ev.accepted = some cl) :
    drivestatus_server_poll_listen c hw ev w = init_world c hw w cl := by
  have hlisten : drivestatus_server_poll_listen c hw ev w =
      drivestatus_server_send_initial c hw (accept_world c w cl) := by
    unfold drivestatus_server_poll_listen
    simp only [hl, hr, ha]
    have := accept_prepare c w cl
    simp only at this
    simp [this]
  rw [hlisten]
  unfold drivestatus_server_send_initial init_world
  simp only [init_loop_eq, active_units]
  by_cases hact : (List.range c.NUM_DISK_UNITS).filter
      (fun u => drive_status_unit_active c hw u ≠ 0) = []
  · simp [hact]
  · simp [hact]

theorem init_world_client (c : Consts) (hw : Hardware) (w : World) (cl : Nat) :
    (init_world c hw w cl).srv.client_socket = some cl := by
  unfold init_world
  split <;> rfl

theorem init_world_cell (c : Consts) (hw : Hardware) (w : World) (cl u : Nat) :
    cell (init_world c hw w cl) u =
      cell (loopWorld (initCell c hw) (accept_world c w cl) c.NUM_DISK_UNITS) u := by
  unfold init_world
  split <;> rfl

/-- The shape of the world a poll returns, over all network answers. -/
theorem poll_cases (c : Consts) (hw : Hardware) (ev : PollEvents) (w : World) :
    monitor_drivestatus_poll c hw ev w = w ∨
      (∃ cl, monitor_drivestatus_poll c hw ev w = init_world c hw w cl) ∨
      (∃ cl, monitor_drivestatus_poll c hw ev w =
        drivestatus_server_close_client c (init_world c hw w cl)) ∨
      monitor_drivestatus_poll c hw ev w = drivestatus_server_close_client c w ∨
      (w.srv.client_socket ≠ none ∧
        monitor_drivestatus_poll c hw ev w =
          loopWorld (stepCell c hw) w c.NUM_DISK_UNITS) := by
  by_cases he : w.srv.server_enabled = 0
  · left
    unfold monitor_drivestatus_poll
    rw [if_pos he]
  · by_cases ha : accepts w ev
    · obtain ⟨hl, hr, hacc⟩ := ha
      obtain ⟨l, hl'⟩ := Option.ne_none_iff_exists'.mp hl
      obtain ⟨cl, hcl⟩ := Option.ne_none_iff_exists'.mp hacc
      by_cases hh : hangs_up ev
      · right; right; left
        refine ⟨cl, ?_⟩
        unfold monitor_drivestatus_poll
        rw [if_neg he, listen_accept c hw ev w l cl hl' hr hcl]
        simp only [init_world_client]
        unfold hangs_up at hh
        rw [if_pos hh]
      · right; left
        refine ⟨cl, ?_⟩
        rw [poll_accept c hw ev w l cl he hl' hr hcl hh]
        rfl
    · cases hc : w.srv.client_socket with
      | none =>
        left
        exact poll_idle c hw ev w (Or.inr hc) ha
      | some cl =>
        by_cases hh : hangs_up ev
        · right; right; right; left
          unfold monitor_drivestatus_poll
          rw [if_neg he]
          simp only [poll_listen_no_accept c hw ev w ha, hc]
          unfold hangs_up at hh
          rw [if_pos hh]
        · right; right; right; right
          refine ⟨by simp, ?_⟩
          exact poll_connected c hw ev w cl he hc ha hh

theorem cellRel_refl (c : Consts) (hw : Hardware) (u : Nat) (x : UnitCell) :
    CellRel c hw u x x :=
  ⟨Or.inl rfl, Or.inl rfl, Or.inl rfl⟩

theorem motor_read_cases (c : Consts) (ctx : diskunit_context_t) (m : Int) :
    motor_read c ctx m = m ∨
      (m < 0 ∧ motor_read c ctx m =
        (if ctx.drive0.byte_ready_active &&& c.BRA_MOTOR_ON ≠ 0 then 1 else 0)) := by
  by_cases hm : m < 0
  · right
    refine ⟨hm, ?_⟩
    unfold motor_read
    rw [if_pos hm]
  · left
    exact motor_read_idem c ctx m (not_lt.mp hm)

theorem stepCell_rel (c : Consts) (hw : Hardware) (u : Nat) (x : UnitCell) :
    CellRel c hw u x (stepCell c hw u x).1 := by
  by_cases h : drive_status_unit_active c hw u = 0
  · by_cases hv : x.valid = 0
    · simp only [stepCell, if_pos h, hv, ne_eq, not_true_eq_false, if_false]
      exact cellRel_refl c hw u x
    · simp only [stepCell, if_pos h, hv, ne_eq, not_false_eq_true, if_true]
      exact ⟨Or.inl rfl, Or.inl rfl, Or.inl rfl⟩
  · obtain ⟨ctx, hctx⟩ := unit_active_ctx h
    have hm : (motor_read c ctx x.motor = x.motor ∨
        (x.motor < 0 ∧ ∃ ctx', hw u = some ctx' ∧ drive_status_unit_active c hw u ≠ 0 ∧
          motor_read c ctx x.motor =
            (if ctx'.drive0.byte_ready_active &&& c.BRA_MOTOR_ON ≠ 0 then 1 else 0))) := by
      rcases motor_read_cases c ctx x.motor with hq | ⟨hlt, hq⟩
      · exact Or.inl hq
      · exact Or.inr ⟨hlt, ctx, hctx, h, hq⟩
    by_cases hd : x.valid = 0 ∨ x.prev ≠ status_read c ctx u x.motor x.step
    · simp only [stepCell, if_neg h, hctx, if_pos hd]
      exact ⟨hm, Or.inr rfl, Or.inr rfl⟩
    · simp only [stepCell, if_neg h, hctx, if_neg hd]
      exact ⟨hm, Or.inl rfl, Or.inl rfl⟩

theorem initCell_rel (c : Consts) (hw : Hardware) (u : Nat) (x : UnitCell) :
    CellRel c hw u x (initCell c hw u x).1 := by
  by_cases h : drive_status_unit_active c hw u = 0
  · simp only [initCell, if_pos h]
    exact cellRel_refl c hw u x
  · obtain ⟨ctx, hctx⟩ := unit_active_ctx h
    simp only [initCell, if_neg h, hctx]
    refine ⟨?_, Or.inr rfl, Or.inr rfl⟩
    rcases motor_read_cases c ctx x.motor with hq | ⟨hlt, hq⟩
    · exact Or.inl hq
    · exact Or.inr ⟨hlt, ctx, hctx, h, hq⟩

/-- `CellRel` looks only at the motor cache, the step flag and the record. -/
theorem cellRel_congr (c : Consts) (hw : Hardware) (u : Nat) (x x' y y' : UnitCell)
    (h : CellRel c hw u x y) (hxm : x'.motor = x.motor) (hxs : x'.step = x.step)
    (hxp : x'.prev = x.prev) (hym : y'.motor = y.motor) (hys : y'.step = y.step)
    (hyp : y'.prev = y.prev) : CellRel c hw u x' y' := by
  unfold CellRel at h ⊢
  rw [hxm, hxs, hxp, hym, hys, hyp]
  exact h

theorem loopWorld_rel (c : Consts) (hw : Hardware) (F : Nat → UnitCell → UnitCell × List String)
    (hF : ∀ u x, CellRel c hw u x (F u x).1) (w : World) (n u : Nat) :
    CellRel c hw u (cell w u) (cell (loopWorld F w n) u) := by
  rw [cell_loopWorld]
  split
  · exact hF u (cell w u)
  · exact cellRel_refl c hw u _

theorem close_client_reg (c : Consts) (w : World) :
    (drivestatus_server_close_client c w).reg = w.reg := by
  unfold drivestatus_server_close_client
  cases w.srv.client_socket <;> rfl

theorem close_client_prev_status (c : Consts) (w : World) :
    (drivestatus_server_close_client c w).srv.prev_status = w.srv.prev_status := by
  unfold drivestatus_server_close_client
  cases w.srv.client_socket <;> rfl

theorem close_client_client (c : Consts) (w : World) :
    (drivestatus_server_close_client c w).srv.client_socket = none := by
  unfold drivestatus_server_close_client
  cases h : w.srv.client_socket <;> simp [drivestatus_server_reset_prev, h]

theorem close_client_prev_valid (c : Consts) (w : World) (u : Nat) (hu : u < c.NUM_DISK_UNITS) :
    (drivestatus_server_close_client c w).srv.prev_valid u = 0 := by
  unfold drivestatus_server_close_client
  cases h : w.srv.client_socket <;> simp [reset_prev_valid, hu]

theorem init_world_rel (c : Consts) (hw : Hardware) (w : World) (cl u : Nat) :
    CellRel c hw u (cell w u) (cell (init_world c hw w cl) u) := by
  rw [init_world_cell]
  exact cellRel_congr c hw u _ _ _ _
    (loopWorld_rel c hw (initCell c hw) (initCell_rel c hw) (accept_world c w cl)
      c.NUM_DISK_UNITS u) rfl rfl rfl rfl rfl rfl

theorem close_client_rel (c : Consts) (hw : Hardware) (w x : World) (u : Nat)
    (h : CellRel c hw u (cell w u) (cell x u)) :
    CellRel c hw u (cell w u) (cell (drivestatus_server_close_client c x) u) := by
  refine cellRel_congr c hw u _ _ _ _ h rfl rfl rfl ?_ ?_ ?_
  · show (drivestatus_server_close_client c x).reg.drive_status_motor u = _
    rw [close_client_reg]
    rfl
  · show (drivestatus_server_close_client c x).reg.drive_status_step u = _
    rw [close_client_reg]
    rfl
  · show (drivestatus_server_close_client c x).srv.prev_status u = _
    rw [close_client_prev_status]
    rfl

/-- What any poll may do to the entries of a unit. -/
theorem poll_rel (c : Consts) (hw : Hardware) (ev : PollEvents) (w : World) (u : Nat) :
    CellRel c hw u (cell w u) (cell (monitor_drivestatus_poll c hw ev w) u) := by
  rcases poll_cases c hw ev w with h | ⟨cl, h⟩ | ⟨cl, h⟩ | h | ⟨_, h⟩
  · rw [h]
    exact cellRel_refl c hw u _
  · rw [h]
    exact init_world_rel c hw w cl u
  · rw [h]
    exact close_client_rel c hw w _ u (init_world_rel c hw w cl u)
  · rw [h]
    exact close_client_rel c hw w w u (cellRel_refl c hw u _)
  · rw [h]
    exact loopWorld_rel c hw (stepCell c hw) (stepCell_rel c hw) w c.NUM_DISK_UNITS u

/-- C15 (amended). Poll side effects on the registry.  For every server,
registry and hardware state and every network answer, a poll leaves a known
motor cache entry (0 or more) as it was, and the entry of a unit that is not
active as it was; an entry that changes was Unknown, belongs to an active unit
and now holds the hardware motor bit.  A step flag is left as it was or is 0
afterwards. -/
theorem poll_registry_effect (c : Consts) (hw : Hardware) (ev : PollEvents) (w : World)
    (u : Nat) :
    (0 ≤ w.reg.drive_status_motor u →
        (monitor_drivestatus_poll c hw ev w).reg.drive_status_motor u =
          w.reg.drive_status_motor u) ∧
      (drive_status_unit_active c hw u = 0 →
        (monitor_drivestatus_poll c hw ev w).reg.drive_status_motor u =
          w.reg.drive_status_motor u) ∧
      ((monitor_drivestatus_poll c hw ev w).reg.drive_status_motor u =
          w.reg.drive_status_motor u ∨
        (w.reg.drive_status_motor u < 0 ∧
          ∃ ctx, hw u = some ctx ∧ drive_status_unit_active c hw u ≠ 0 ∧
            (monitor_drivestatus_poll c hw ev w).reg.drive_status_motor u =
              (if ctx.drive0.byte_ready_active &&& c.BRA_MOTOR_ON ≠ 0 then 1 else 0))) ∧
      ((monitor_drivestatus_poll c hw ev w).reg.drive_status_step u = w.reg.drive_status_step u ∨
        (monitor_drivestatus_poll c hw ev w).reg.drive_status_step u = 0) := by
  obtain ⟨hm, hs, _⟩ := poll_rel c hw ev w u
  simp only [cell] at hm hs
  refine ⟨?_, ?_, hm, hs⟩
  · intro hnn
    rcases hm with hm | ⟨hlt, _⟩
    · exact hm
    · exact absurd hlt (not_lt.mpr hnn)
  · intro hina
    rcases hm with hm | ⟨_, _, _, hact, _⟩
    · exact hm
    · exact absurd hina hact

theorem poll_registry_effect_witness :
    (0 ≤ scenario_stepped.reg.drive_status_motor 0) ∧
      (monitor_drivestatus_poll viceConsts scenario_hw_motor_off ev_quiet
          scenario_stepped).reg.drive_status_motor 0 =
        scenario_stepped.reg.drive_status_motor 0 :=
  ⟨by decide,
    (poll_registry_effect viceConsts scenario_hw_motor_off ev_quiet scenario_stepped 0).1
      (by decide)⟩

/-- C15, as stated, fails: with a registry fresh from `drive_status_init`, the
poll that accepts the first client reads unit 0 and thereby changes its motor
cache from Unknown (-1) to 1. -/
theorem poll_caches_motor_counterexample :
    fresh_world.reg.drive_status_motor 0 = -1 ∧
      (monitor_drivestatus_poll viceConsts scenario_hw ev_accept
        fresh_world).reg.drive_status_motor 0 = 1 ∧
      (monitor_drivestatus_poll viceConsts scenario_hw ev_accept
        fresh_world).reg.drive_status_motor 0 ≠ fresh_world.reg.drive_status_motor 0 := by
  decide

/-! ## Reachable states -/

theorem get_regwf (c : Consts) (hw : Hardware) (v : Nat) (st : drive_status_t) (cl : Int)
    (r : Registry) (h : RegWF r) : RegWF (drive_status_get c hw v st cl r).reg := by
  by_cases hact : drive_status_unit_active c hw v = 0
  · rw [get_inactive c hw v st cl r hact]
    exact h
  · obtain ⟨ctx, hctx⟩ := unit_active_ctx hact
    rw [get_active c hw v st cl r ctx hctx hact]
    intro u
    have hmotor : Function.update r.drive_status_motor v
          (motor_read c ctx (r.drive_status_motor v)) u = -1 ∨
        Function.update r.drive_status_motor v
          (motor_read c ctx (r.drive_status_motor v)) u = 0 ∨
        Function.update r.drive_status_motor v
          (motor_read c ctx (r.drive_status_motor v)) u = 1 := by
      by_cases huv : u = v
      · rw [huv, Function.update_same]
        rcases motor_read_cases c ctx (r.drive_status_motor v) with hq | ⟨_, hq⟩
        · rw [hq]
          exact (h v).1
        · rw [hq]
          split
          · exact Or.inr (Or.inr rfl)
          · exact Or.inr (Or.inl rfl)
      · rw [Function.update_noteq huv]
        exact (h u).1
    have hstep : (if cl ≠ 0 then Function.update r.drive_status_step v 0
          else r.drive_status_step) u = 0 ∨
        (if cl ≠ 0 then Function.update r.drive_status_step v 0
          else r.drive_status_step) u = 1 := by
      by_cases hcl : cl = 0
      · rw [if_neg (not_not.mpr hcl)]
        exact (h u).2
      · rw [if_pos hcl]
        by_cases huv : u = v
        · rw [huv, Function.update_same]
          exact Or.inl rfl
        · rw [Function.update_noteq huv]
          exact (h u).2
    exact ⟨hmotor, hstep⟩

theorem apply_regwf (c : Consts) (op : RegOp) (r : Registry) (h : RegWF r) :
    RegWF (op.apply c r) := by
  cases op with
  | get hw v st cl => exact get_regwf c hw v st cl r h
  | set_step_event v =>
    simp only [RegOp.apply, drive_status_set_step_event]
    split
    · exact h
    · intro u
      refine ⟨(h u).1, ?_⟩
      show Function.update r.drive_status_step v 1 u = 0 ∨
        Function.update r.drive_status_step v 1 u = 1
      by_cases huv : u = v
      · rw [huv, Function.update_same]
        exact Or.inr rfl
      · rw [Function.update_noteq huv]
        exact (h u).2
  | set_motor v mo =>
    simp only [RegOp.apply, drive_status_set_motor]
    split
    · exact h
    · intro u
      refine ⟨?_, (h u).2⟩
      show Function.update r.drive_status_motor v (if mo ≠ 0 then 1 else 0) u = -1 ∨
        Function.update r.drive_status_motor v (if mo ≠ 0 then 1 else 0) u = 0 ∨
        Function.update r.drive_status_motor v (if mo ≠ 0 then 1 else 0) u = 1
      by_cases huv : u = v
      · rw [huv, Function.update_same]
        split
        · exact Or.inr (Or.inr rfl)
        · exact Or.inr (Or.inl rfl)
      · rw [Function.update_noteq huv]
        exact (h u).1
  | reset_unit v =>
    simp only [RegOp.apply, drive_status_reset_unit]
    split
    · exact h
    · intro u
      show (Function.update r.drive_status_motor v (-1) u = -1 ∨
          Function.update r.drive_status_motor v (-1) u = 0 ∨
          Function.update r.drive_status_motor v (-1) u = 1) ∧
        (Function.update r.drive_status_step v 0 u = 0 ∨
          Function.update r.drive_status_step v 0 u = 1)
      by_cases huv : u = v
      · rw [huv, Function.update_same, Function.update_same]
        exact ⟨Or.inl rfl, Or.inl rfl⟩
      · rw [Function.update_noteq huv, Function.update_noteq huv]
        exact h u
  | init =>
    simp only [RegOp.apply]
    rw [init_eq]
    intro u
    show ((if u < c.NUM_DISK_UNITS then (-1 : Int) else r.drive_status_motor u) = -1 ∨
        (if u < c.NUM_DISK_UNITS then (-1 : Int) else r.drive_status_motor u) = 0 ∨
        (if u < c.NUM_DISK_UNITS then (-1 : Int) else r.drive_status_motor u) = 1) ∧
      ((if u < c.NUM_DISK_UNITS then (0 : Int) else r.drive_status_step u) = 0 ∨
        (if u < c.NUM_DISK_UNITS then (0 : Int) else r.drive_status_step u) = 1)
    by_cases hu : u < c.NUM_DISK_UNITS
    · rw [if_pos hu, if_pos hu]
      exact ⟨Or.inl rfl, Or.inl rfl⟩
    · rw [if_neg hu, if_neg hu]
      exact h u

theorem poll_regwf (c : Consts) (hw : Hardware) (ev : PollEvents) (w : World)
    (h : RegWF w.reg) : RegWF (monitor_drivestatus_poll c hw ev w).reg := by
  intro u
  obtain ⟨hm, hs, _⟩ := poll_rel c hw ev w u
  simp only [cell] at hm hs
  constructor
  · rcases hm with hm | ⟨_, ctx, _, _, hm⟩
    · rw [hm]
      exact (h u).1
    · rw [hm]
      split
      · exact Or.inr (Or.inr rfl)
      · exact Or.inr (Or.inl rfl)
  · rcases hs with hs | hs
    · rw [hs]
      exact (h u).2
    · exact Or.inl hs

theorem activate_frame (env : NetEnv) (w : World) :
    (drivestatus_server_activate env w).1.reg = w.reg ∧
      (drivestatus_server_activate env w).1.srv.client_socket = w.srv.client_socket ∧
      (drivestatus_server_activate env w).1.srv.prev_valid = w.srv.prev_valid ∧
      (drivestatus_server_activate env w).1.srv.prev_status = w.srv.prev_status := by
  unfold drivestatus_server_activate
  repeat' split
  all_goals exact ⟨rfl, rfl, rfl, rfl⟩

theorem deactivate_frame (w : World) :
    (drivestatus_server_deactivate w).reg = w.reg ∧
      (drivestatus_server_deactivate w).srv.client_socket = w.srv.client_socket ∧
      (drivestatus_server_deactivate w).srv.prev_valid = w.srv.prev_valid ∧
      (drivestatus_server_deactivate w).srv.prev_status = w.srv.prev_status := by
  unfold drivestatus_server_deactivate
  split <;> exact ⟨rfl, rfl, rfl, rfl⟩

theorem set_enabled_frame (env : NetEnv) (value : Int) (w : World) :
    (set_server_enabled env value w).1.reg = w.reg ∧
      (set_server_enabled env value w).1.srv.client_socket = w.srv.client_socket ∧
      (set_server_enabled env value w).1.srv.prev_valid = w.srv.prev_valid ∧
      (set_server_enabled env value w).1.srv.prev_status = w.srv.prev_status := by
  have ha := activate_frame env w
  have hd := deactivate_frame w
  unfold set_server_enabled
  by_cases hv : value = 0
  · by_cases he : w.srv.server_enabled = 0
    · simp [hv, he]
    · simp only [hv, he, ne_eq, not_true_eq_false, not_false_eq_true, if_true, if_false]
      exact hd
  · by_cases he : w.srv.server_enabled = 0
    · simp only [hv, he, ne_eq, not_false_eq_true, if_true, true_and]
      rw [if_neg (by decide)]
      split
      · exact ha
      · exact ha
    · simp [hv, he]

theorem set_address_frame (env : NetEnv) (name : Option String) (w : World) :
    (set_server_address env name w).1.reg = w.reg ∧
      (set_server_address env name w).1.srv.client_socket = w.srv.client_socket ∧
      (set_server_address env name w).1.srv.prev_valid = w.srv.prev_valid ∧
      (set_server_address env name w).1.srv.prev_status = w.srv.prev_status := by
  have hd := deactivate_frame w
  unfold set_server_address
  by_cases hsame : w.srv.server_address ≠ none ∧ name ≠ none ∧ name = w.srv.server_address
  · rw [if_pos hsame]
    exact ⟨rfl, rfl, rfl, rfl⟩
  · rw [if_neg hsame]
    by_cases he : w.srv.server_enabled = 0
    · simp [he]
    · have hen : (drivestatus_server_deactivate w).srv.server_enabled ≠ 0 := by
        unfold drivestatus_server_deactivate
        split <;> exact he
      have ha := activate_frame env
        { drivestatus_server_deactivate w with
          srv := { (drivestatus_server_deactivate w).srv with server_address := name } }
      simp only [he, ne_eq, not_false_eq_true, if_true, hen]
      exact ⟨ha.1.trans hd.1, ha.2.1.trans hd.2.1, ha.2.2.1.trans hd.2.2.1,
        ha.2.2.2.trans hd.2.2.2⟩

theorem shutdown_frame (w : World) :
    (monitor_drivestatus_resources_shutdown w).reg = w.reg ∧
      (monitor_drivestatus_resources_shutdown w).srv.client_socket = w.srv.client_socket ∧
      (monitor_drivestatus_resources_shutdown w).srv.prev_valid = w.srv.prev_valid ∧
      (monitor_drivestatus_resources_shutdown w).srv.prev_status = w.srv.prev_status :=
  deactivate_frame w

theorem sysInv_frame (c : Consts) (w x : World) (h : SysInv c w) (hr : x.reg = w.reg)
    (hc : x.srv.client_socket = w.srv.client_socket) (hv : x.srv.prev_valid = w.srv.prev_valid)
    (hp : x.srv.prev_status = w.srv.prev_status) : SysInv c x := by
  unfold SysInv at h ⊢
  rw [hr, hc, hv, hp]
  exact h

theorem poll_sysInv (c : Consts) (hw : Hardware) (ev : PollEvents) (w : World)
    (h : SysInv c w) : SysInv c (monitor_drivestatus_poll c hw ev w) := by
  refine ⟨poll_regwf c hw ev w h.1, ?_, ?_⟩
  · intro u
    obtain ⟨_, _, hp⟩ := poll_rel c hw ev w u
    simp only [cell] at hp
    rcases hp with hp | hp
    · rw [hp]
      exact h.2.1 u
    · exact hp
  · intro u hu hvalid
    rcases poll_cases c hw ev w with hq | ⟨cl, hq⟩ | ⟨cl, hq⟩ | hq | ⟨hcl, hq⟩
    · rw [hq] at hvalid ⊢
      exact h.2.2 u hu hvalid
    · rw [hq, init_world_client]
      simp
    · rw [hq, close_client_prev_valid c _ u hu] at hvalid
      exact absurd rfl hvalid
    · rw [hq, close_client_prev_valid c _ u hu] at hvalid
      exact absurd rfl hvalid
    · rw [hq]
      exact hcl

theorem apply_sysInv (c : Consts) (op : SysOp) (w : World) (h : SysInv c w) :
    SysInv c (op.apply c w) := by
  cases op with
  | poll hw ev => exact poll_sysInv c hw ev w h
  | set_enabled env value =>
    obtain ⟨h1, h2, h3, h4⟩ := set_enabled_frame env value w
    exact sysInv_frame c w _ h h1 h2 h3 h4
  | set_address env name =>
    obtain ⟨h1, h2, h3, h4⟩ := set_address_frame env name w
    exact sysInv_frame c w _ h h1 h2 h3 h4
  | reg op => exact ⟨apply_regwf c op w.reg h.1, h.2.1, h.2.2⟩
  | shutdown =>
    obtain ⟨h1, h2, h3, h4⟩ := shutdown_frame w
    exact sysInv_frame c w _ h h1 h2 h3 h4

theorem initial_sysInv (c : Consts) : SysInv c initial_world := by
  refine ⟨?_, ?_, ?_⟩
  · intro u
    exact ⟨Or.inr (Or.inl rfl), Or.inl rfl⟩
  · intro u
    rfl
  · intro u _ hv
    exact absurd rfl hv

theorem run_sysInv (c : Consts) (ops : List SysOp) (w : World) (h : SysInv c w) :
    SysInv c (run_sys c ops w) := by
  induction ops generalizing w with
  | nil => exact h
  | cons op ops ih =>
    unfold run_sys
    rw [List.foldl_cons]
    exact ih (op.apply c w) (apply_sysInv c op w h)

/-! ## Wire format -/

theorem format_line_intercalate (s : drive_status_t) :
    format_line s =
      String.intercalate " "
        [toString s.drive_num, toString s.motor_on, toString s.led_on, toString s.track,
          toString s.rw_mode, toString s.step_event] ++ "\n" := rfl

theorem status_read_in_range (c : Consts) (ctx : diskunit_context_t) (u : Nat) (m s : Int)
    (hm : m = -1 ∨ m = 0 ∨ m = 1) (hs : s = 0 ∨ s = 1) :
    status_in_range (status_read c ctx u m s) := by
  have hmr : motor_read c ctx m = 0 ∨ motor_read c ctx m = 1 := by
    rcases motor_read_cases c ctx m with hq | ⟨hlt, hq⟩
    · rw [hq]
      rcases hm with rfl | hm
      · exact absurd (motor_read_nonneg c ctx (-1)) (by rw [hq]; decide)
      · exact hm
    · rw [hq]
      split
      · exact Or.inr rfl
      · exact Or.inl rfl
  refine ⟨hmr, ?_, ?_, hs⟩
  · show (if ctx.drive0.led_status &&& 1 ≠ 0 then (1 : Int) else 0) = 0 ∨
      (if ctx.drive0.led_status &&& 1 ≠ 0 then (1 : Int) else 0) = 1
    split
    · exact Or.inr rfl
    · exact Or.inl rfl
  · show (if motor_read c ctx m = 0 then (0 : Int)
        else if ctx.drive0.read_write_mode ≠ 0 then 1 else 2) = 0 ∨
      (if motor_read c ctx m = 0 then (0 : Int)
        else if ctx.drive0.read_write_mode ≠ 0 then 1 else 2) = 1 ∨
      (if motor_read c ctx m = 0 then (0 : Int)
        else if ctx.drive0.read_write_mode ≠ 0 then 1 else 2) = 2
    split
    · exact Or.inl rfl
    · split
      · exact Or.inr (Or.inl rfl)
      · exact Or.inr (Or.inr rfl)

theorem format_line_conforms (s : drive_status_t) (h : status_in_range s) :
    conforms_grammar (format_line s) :=
  ⟨s, h, format_line_intercalate s⟩

theorem stepCell_lines (c : Consts) (hw : Hardware) (u : Nat) (x : UnitCell)
    (hm : x.motor = -1 ∨ x.motor = 0 ∨ x.motor = 1) (hs : x.step = 0 ∨ x.step = 1) :
    ∀ l, l ∈ (stepCell c hw u x).2 → l = error_line ∨ conforms_grammar l := by
  intro l hl
  by_cases h : drive_status_unit_active c hw u = 0
  · by_cases hv : x.valid = 0
    · simp [stepCell, h, hv] at hl
    · simp [stepCell, h, hv] at hl
      exact Or.inl hl
  · obtain ⟨ctx, hctx⟩ := unit_active_ctx h
    by_cases hd : x.valid = 0 ∨ x.prev ≠ status_read c ctx u x.motor x.step
    · simp only [stepCell, if_neg h, hctx, if_pos hd, List.mem_singleton] at hl
      rw [hl]
      exact Or.inr (format_line_conforms _ (status_read_in_range c ctx u _ _ hm hs))
    · simp only [stepCell, if_neg h, hctx, if_neg hd, List.not_mem_nil] at hl

theorem initCell_lines (c : Consts) (hw : Hardware) (u : Nat) (x : UnitCell)
    (hm : x.motor = -1 ∨ x.motor = 0 ∨ x.motor = 1) (hs : x.step = 0 ∨ x.step = 1) :
    ∀ l, l ∈ (initCell c hw u x).2 → l = error_line ∨ conforms_grammar l := by
  intro l hl
  by_cases h : drive_status_unit_active c hw u = 0
  · simp [initCell, h] at hl
  · obtain ⟨ctx, hctx⟩ := unit_active_ctx h
    simp only [initCell, if_neg h, hctx, List.mem_singleton] at hl
    rw [hl]
    exact Or.inr (format_line_conforms _ (status_read_in_range c ctx u _ _ hm hs))

theorem loopWorld_sentwf (F : Nat → UnitCell → UnitCell × List String) (w : World) (n : Nat)
    (hw : SentWF w)
    (hF : ∀ u, ∀ l, l ∈ (F u (cell w u)).2 → l = error_line ∨ conforms_grammar l) :
    SentWF (loopWorld F w n) := by
  intro p hp
  simp only [loopWorld, List.mem_append, List.mem_flatMap, List.mem_map] at hp
  rcases hp with hp | ⟨v, _, l, hl, rfl⟩
  · exact hw p hp
  · exact hF v l hl

theorem close_client_sent (c : Consts) (w : World) :
    (drivestatus_server_close_client c w).sent = w.sent := by
  unfold drivestatus_server_close_client
  cases w.srv.client_socket <;> rfl

theorem init_world_sentwf (c : Consts) (hw : Hardware) (w : World) (cl : Nat)
    (hr : RegWF w.reg) (hs : SentWF w) : SentWF (init_world c hw w cl) := by
  have hloop : SentWF (loopWorld (initCell c hw) (accept_world c w cl) c.NUM_DISK_UNITS) := by
    apply loopWorld_sentwf
    · exact hs
    · intro u
      exact initCell_lines c hw u _ (hr u).1 (hr u).2
  unfold init_world
  split
  · intro p hp
    simp only [drivestatus_server_send_error, List.mem_append, List.mem_singleton] at hp
    rcases hp with hp | rfl
    · exact hloop p hp
    · exact Or.inl rfl
  · exact hloop

theorem poll_sentwf (c : Consts) (hw : Hardware) (ev : PollEvents) (w : World)
    (hr : RegWF w.reg) (hs : SentWF w) : SentWF (monitor_drivestatus_poll c hw ev w) := by
  rcases poll_cases c hw ev w with hq | ⟨cl, hq⟩ | ⟨cl, hq⟩ | hq | ⟨_, hq⟩
  · rw [hq]
    exact hs
  · rw [hq]
    exact init_world_sentwf c hw w cl hr hs
  · rw [hq]
    intro p hp
    rw [close_client_sent] at hp
    exact init_world_sentwf c hw w cl hr hs p hp
  · rw [hq]
    intro p hp
    rw [close_client_sent] at hp
    exact hs p hp
  · rw [hq]
    apply loopWorld_sentwf
    · exact hs
    · intro u
      exact stepCell_lines c hw u _ (hr u).1 (hr u).2

theorem activate_sent (env : NetEnv) (w : World) :
    (drivestatus_server_activate env w).1.sent = w.sent := by
  unfold drivestatus_server_activate
  repeat' split
  all_goals rfl

theorem deactivate_sent (w : World) : (drivestatus_server_deactivate w).sent = w.sent := by
  unfold drivestatus_server_deactivate
  split <;> rfl

theorem set_enabled_sent (env : NetEnv) (value : Int) (w : World) :
    (set_server_enabled env value w).1.sent = w.sent := by
  have ha := activate_sent env w
  have hd := deactivate_sent w
  unfold set_server_enabled
  by_cases hv : value = 0
  · by_cases he : w.srv.server_enabled = 0
    · simp [hv, he]
    · simp only [hv, he, ne_eq, not_true_eq_false, not_false_eq_true, if_true, if_false]
      exact hd
  · by_cases he : w.srv.server_enabled = 0
    · simp only [hv, he, ne_eq, not_false_eq_true, if_true, true_and]
      rw [if_neg (by decide)]
      split
      · exact ha
      · exact ha
    · simp [hv, he]

theorem set_address_sent (env : NetEnv) (name : Option String) (w : World) :
    (set_server_address env name w).1.sent = w.sent := by
  have hd := deactivate_sent w
  unfold set_server_address
  by_cases hsame : w.srv.server_address ≠ none ∧ name ≠ none ∧ name = w.srv.server_address
  · rw [if_pos hsame]
  · rw [if_neg hsame]
    by_cases he : w.srv.server_enabled = 0
    · simp [he]
    · have hen : (drivestatus_server_deactivate w).srv.server_enabled ≠ 0 := by
        unfold drivestatus_server_deactivate
        split <;> exact he
      have ha := activate_sent env
        { drivestatus_server_deactivate w with
          srv := { (drivestatus_server_deactivate w).srv with server_address := name } }
      simp only [he, ne_eq, not_false_eq_true, if_true, hen]
      exact ha.trans hd

theorem apply_sentwf (c : Consts) (op : SysOp) (w : World) (hr : RegWF w.reg)
    (hs : SentWF w) : SentWF (op.apply c w) := by
  cases op with
  | poll hw ev => exact poll_sentwf c hw ev w hr hs
  | set_enabled env value =>
    intro p hp
    simp only [SysOp.apply, set_enabled_sent] at hp
    exact hs p hp
  | set_address env name =>
    intro p hp
    simp only [SysOp.apply, set_address_sent] at hp
    exact hs p hp
  | reg op => exact hs
  | shutdown =>
    intro p hp
    simp only [SysOp.apply, monitor_drivestatus_resources_shutdown, deactivate_sent] at hp
    exact hs p hp

theorem run_sentwf (c : Consts) (ops : List SysOp) (w : World) (hi : SysInv c w)
    (hs : SentWF w) : SentWF (run_sys c ops w) := by
  induction ops generalizing w with
  | nil => exact hs
  | cons op ops ih =>
    unfold run_sys
    rw [List.foldl_cons]
    exact ih (op.apply c w) (apply_sysInv c op w hi) (apply_sentwf c op w hi.1 hs)

/-- C16. Wire format.  The line built for a record is the decimal renderings of
`drive_num`, `motor_on`, `led_on`, `track`, `rw_mode` and `step_event` in that
order, joined by single spaces and followed by one newline; the record
(8,1,1,18,1,0) gives `8 1 1 18 1 0`.  In every state the subsystem reaches from
program start, a successful `drive_status_get` produces a record with
`motor_on`, `led_on`, `step_event` in 0..1 and `rw_mode` in 0..2, whose line is
of the documented grammar, and every line that has been sent is the error line
or a line of the documented grammar. -/
theorem wire_format (c : Consts) (ops : List SysOp) :
    (∀ s : drive_status_t,
        format_line s =
          String.intercalate " "
            [toString s.drive_num, toString s.motor_on, toString s.led_on, toString s.track,
              toString s.rw_mode, toString s.step_event] ++ "\n") ∧
      format_line ⟨8, 1, 1, 18, 1, 0⟩ = "8 1 1 18 1 0\n" ∧
      (∀ (hw : Hardware) (u : Nat) (st : drive_status_t) (cl : Int),
        (drive_status_get c hw u st cl (run_sys c ops initial_world).reg).rc = 0 →
        status_in_range (drive_status_get c hw u st cl (run_sys c ops initial_world).reg).status ∧
          conforms_grammar
            (format_line
              (drive_status_get c hw u st cl (run_sys c ops initial_world).reg).status)) ∧
      (∀ p, p ∈ (run_sys c ops initial_world).sent →
        p.2 = error_line ∨ conforms_grammar p.2) := by
  have hinv := run_sysInv c ops initial_world (initial_sysInv c)
  refine ⟨format_line_intercalate, by decide, ?_, ?_⟩
  · intro hw u st cl hok
    have hact : drive_status_unit_active c hw u ≠ 0 := by
      intro h0
      rw [get_rc, if_pos h0] at hok
      exact absurd hok (by decide)
    obtain ⟨ctx, hctx⟩ := unit_active_ctx hact
    rw [get_status_active c hw u st cl _ ctx hctx hact]
    have hr := status_read_in_range c ctx u _ _ (hinv.1 u).1 (hinv.1 u).2
    exact ⟨hr, format_line_conforms _ hr⟩
  · apply run_sentwf c ops initial_world (initial_sysInv c)
    intro p hp
    exact absurd hp (List.not_mem_nil p)

theorem wire_format_witness :
    (drive_status_get viceConsts scenario_hw 0 uninit_status 0
        (run_sys viceConsts scenario_calls initial_world).reg).rc = 0 ∧
      status_in_range
        (drive_status_get viceConsts scenario_hw 0 uninit_status 0
          (run_sys viceConsts scenario_calls initial_world).reg).status ∧
      (run_sys viceConsts scenario_calls initial_world).sent = [(some 7, "8 1 1 18 1 0\n")] ∧
      conforms_grammar "8 1 1 18 1 0\n" :=
  have h := wire_format viceConsts scenario_calls
  have hs : (run_sys viceConsts scenario_calls initial_world).sent =
      [(some 7, "8 1 1 18 1 0\n")] := by decide
  ⟨by decide, (h.2.2.1 scenario_hw 0 uninit_status 0 (by decide)).1, hs,
    (h.2.2.2 (some 7, "8 1 1 18 1 0\n") (by rw [hs]; exact List.mem_singleton.mpr rfl)).resolve_left
      (by decide)⟩

/-! ## Invariants of the delivered cache -/

/-- C19. Delivered cache never outlives its client.  In every state reached from
program start by polls (with any hardware and any accept, readability and
receive outcomes), enable, disable and address-change calls, registry calls and
the shutdown hook: if the cache entry of a unit below `NUM_DISK_UNITS` is valid
then a client is connected; put the other way, with no client every such entry
is invalid. -/
theorem cache_needs_client (c : Consts) (ops : List SysOp) :
    (∀ u, u < c.NUM_DISK_UNITS → (run_sys c ops initial_world).srv.prev_valid u ≠ 0 →
        (run_sys c ops initial_world).srv.client_socket ≠ none) ∧
      ((run_sys c ops initial_world).srv.client_socket = none →
        ∀ u, u < c.NUM_DISK_UNITS → (run_sys c ops initial_world).srv.prev_valid u = 0) := by
  have hinv := run_sysInv c ops initial_world (initial_sysInv c)
  refine ⟨hinv.2.2, ?_⟩
  intro hnone u hu
  by_contra hv
  exact hinv.2.2 u hu hv hnone

theorem cache_needs_client_witness :
    (0 < viceConsts.NUM_DISK_UNITS ∧
      (run_sys viceConsts scenario_calls initial_world).srv.prev_valid 0 ≠ 0) ∧
      (run_sys viceConsts scenario_calls initial_world).srv.client_socket ≠ none :=
  ⟨⟨by decide, by decide⟩,
    (cache_needs_client viceConsts scenario_calls).1 0 (by decide) (by decide)⟩

end Vice
